import Mathlib

/-!
Shallow embedding of the `deep-agent` interview question pipeline
(`graph.py`, `state.py`, and the six node modules under `nodes/`).

Modelling conventions, shared by every definition below:

* Python strings are Lean `String`; `s.upper()` is `pyUpper`,
  `s.strip()` is `pyStrip`, `s.split()` (whitespace split, empties
  dropped) is `pySplit`, `s.startswith(p)` is `pyStarts`, and the
  Python substring test `a in b` is `strContainsSub b a`.
* A JSON object returned by the reasoning service is modelled under the
  restriction that its values, when present, are strings: each expected
  key is an `Option String` (`none` = key absent).  A dict missing a key
  raises `KeyError` when subscripted, which the embedding surfaces as
  `Except.error ()`.
* Python truthiness: `None` and the empty string / empty list / empty
  dict are falsy; the `…Truthy` helpers reproduce this for the state
  fields the code tests with `if not x`.
* External collaborators (the OpenAI reasoning service, the SerpAPI
  search provider, `json.loads` applied to the service's text) are an
  `Oracle`: each call site reads one oracle component, which says
  whether the call raised and, for JSON-producing call sites, how the
  returned text parsed.  An uncaught Python exception is `Except.error ()`.
* The state counter `iteration` may in principle hold a non-integer
  value; `IterField` separates `intVal n` from an arbitrary non-integer
  (`nonInt`), matching the `isinstance(…, int)` guards in the code.
-/

/-- True when the pattern list occurs at the head of the haystack list
(character-level model of Python `str.startswith`). -/
def listStarts : List Char → List Char → Bool
  | _, [] => true
  | [], _ :: _ => false
  | a :: hs, b :: ns => a == b && listStarts hs ns

/-- True when the needle occurs contiguously anywhere in the haystack
(character-level model of the Python substring test `needle in hay`). -/
def listHasSub : List Char → List Char → Bool
  | [], needle => needle.isEmpty
  | a :: hs, needle => listStarts (a :: hs) needle || listHasSub hs needle

/-- Python `needle in hay` for strings. -/
def strContainsSub (hay needle : String) : Bool :=
  listHasSub hay.toList needle.toList

/-- Python `s.upper()` (ASCII model): uppercase every character. -/
def pyUpper (s : String) : String :=
  String.mk (s.toList.map Char.toUpper)

/-- Python `s.strip()`: drop leading and trailing whitespace. -/
def pyStrip (s : String) : String :=
  String.mk (((s.toList.dropWhile Char.isWhitespace).reverse.dropWhile
    Char.isWhitespace).reverse)

/-- Helper for `pySplit`: walk the characters, accumulating the current
token in reverse; whitespace closes the token (empty tokens dropped). -/
def splitWsAux : List Char → List Char → List String
  | [], acc => if acc.isEmpty then [] else [String.mk acc.reverse]
  | c :: cs, acc =>
    if c.isWhitespace then
      if acc.isEmpty then splitWsAux cs []
      else String.mk acc.reverse :: splitWsAux cs []
    else splitWsAux cs (c :: acc)

/-- Python `s.split()` with no separator: split on whitespace runs and
drop the empty pieces. -/
def pySplit (s : String) : List String :=
  splitWsAux s.toList []

/-- Python `s.startswith(p)`. -/
def pyStarts (s p : String) : Bool :=
  listStarts s.toList p.toList

/-- Python truthiness of a string: empty is falsy. -/
def pyStrEmpty (s : String) : Bool :=
  s.toList.isEmpty

/-- An apostrophe character, used to spell feedback examples verbatim. -/
def aposChar : Char := Char.ofNat 39

/-- The one-character string containing an apostrophe. -/
def aposStr : String := String.mk [aposChar]

/- ---------------------------------------------------------------- -/
/- Data model (state.py)                                            -/
/- ---------------------------------------------------------------- -/

/-- The `iteration` state field: an integer, or some non-integer value
(the code guards every read with `isinstance(iteration, int)`). -/
inductive IterField where
  | intVal (n : Int)
  | nonInt
deriving DecidableEq, Repr

/-- Coercion the code applies before using `iteration`:
`if not isinstance(iteration, int): iteration = 0`. -/
def coerceIter : IterField → Int
  | .intVal n => n
  | .nonInt => 0

/-- A research candidate built by `researcher_node`:
`{"title": …, "url": …, "summary": …}` — all three keys always present. -/
structure Paper where
  title : String
  url : String
  summary : String
deriving DecidableEq, Repr

/-- The dict stored in `selected_paper`: the selector's parsed JSON
object, whose expected keys `title/authors/summary/url/reason` may each
be absent. -/
structure SelDict where
  title : Option String
  authors : Option String
  summary : Option String
  url : Option String
  reason : Option String
deriving DecidableEq, Repr

/-- A researcher candidate viewed as a `selected_paper` dict (the
selector's JSONDecodeError fallback stores `papers[0]` unchanged: keys
`title/url/summary` present, `authors/reason` absent). -/
def Paper.toSel (p : Paper) : SelDict :=
  ⟨some p.title, none, some p.summary, some p.url, none⟩

/-- The dict stored in `generated_question`: the generator's parsed JSON
object with expected keys `question/wrong_answer/explanation/citation`,
each possibly absent. -/
structure QDict where
  question : Option String
  wrong_answer : Option String
  explanation : Option String
  citation : Option String
deriving DecidableEq, Repr

/-- AgentState (state.py): the keyed document threaded through nodes. -/
structure AgentState where
  topic : String
  research_queries : List String
  papers : List Paper
  selected_paper : Option SelDict
  generated_question : Option QDict
  linkedin_post : Option String
  feedback : Option String
  iteration : IterField
deriving DecidableEq, Repr

/-- Python truthiness of an optional string: `None` and `""` are falsy. -/
def optStrTruthy : Option String → Bool
  | none => false
  | some s => !pyStrEmpty s

/-- Python truthiness of `selected_paper`: `None` and the empty dict are
falsy; a dict with at least one key present is truthy. -/
def selTruthy : Option SelDict → Bool
  | none => false
  | some d =>
      d.title.isSome || d.authors.isSome || d.summary.isSome ||
      d.url.isSome || d.reason.isSome

/-- Python truthiness of `generated_question`: `None` and the empty dict
are falsy; a dict with at least one key present is truthy. -/
def qTruthy : Option QDict → Bool
  | none => false
  | some q =>
      q.question.isSome || q.wrong_answer.isSome ||
      q.explanation.isSome || q.citation.isSome

/-- The initial state built by the caller (`main.py`): every optional
field null/empty and `iteration = 0`. -/
def initState (topic : String) : AgentState :=
  { topic := topic
    research_queries := []
    papers := []
    selected_paper := none
    generated_question := none
    linkedin_post := none
    feedback := none
    iteration := .intVal 0 }

/- ---------------------------------------------------------------- -/
/- Continuation policy (graph.py, should_continue)                  -/
/- ---------------------------------------------------------------- -/

/-- The two routes `should_continue` can select. -/
inductive Route where
  | linkedin
  | generator
deriving DecidableEq, Repr

/-- The approval heuristic inside `should_continue`: uppercase and strip
the feedback, then approve when the result equals `"APPROVE"`, starts
with `"APPROVE"`, or has `"APPROVE"` among its first two
whitespace-delimited tokens (`"APPROVE" in feedback_str.split()[:2]`). -/
def isApprovedFeedback (s : String) : Bool :=
  let f := pyStrip (pyUpper s)
  f == "APPROVE" || pyStarts f "APPROVE" ||
    ((pySplit f).take 2).contains "APPROVE"

/-- should_continue (graph.py): cap check first, then the approval
heuristic on truthy feedback, then the missing-artifact stop, else loop
back to the generator. -/
def should_continue (state : AgentState) : Route :=
  if coerceIter state.iteration ≥ 3 then .linkedin
  else if (match state.feedback with
      | some fb => !pyStrEmpty fb && isApprovedFeedback fb
      | none => false) then .linkedin
  else if !qTruthy state.generated_question then .linkedin
  else .generator

/- ---------------------------------------------------------------- -/
/- External collaborators (oracle)                                  -/
/- ---------------------------------------------------------------- -/

/-- One organic search result as read by `researcher_node`
(`result.get("link"/"title"/"snippet")` — each key may be absent). -/
structure SearchResult where
  link : Option String
  title : Option String
  snippet : Option String
deriving DecidableEq, Repr

/-- How the selector's reasoning response parsed (`json.loads` on the
fence-stripped text): not valid JSON (`JSONDecodeError`), valid JSON but
not a dict (e.g. the literal `null`, a list or a string — subscripting
it with `.get` then raises `AttributeError`), or a dict. -/
inductive SelResp where
  | decodeErr
  | nonDict
  | dict (d : SelDict)
deriving DecidableEq, Repr

/-- Oracle for one run: the behaviour of every external call the nodes
make.  `Except.error ()` on a component means that call raised an
exception at the call site. -/
structure Oracle where
  /-- Planner chain invocation: the comma-separated query list, or a raise. -/
  plannerCall : Except Unit (List String)
  /-- Whether `SERPAPI_API_KEY` is set to a truthy value. -/
  searchKeyPresent : Bool
  /-- Whether `SerpAPIWrapper(...)` construction succeeds. -/
  searchInitOk : Bool
  /-- Search per cleaned query: the `organic_results` list, or a raise. -/
  searchCall : String → Except Unit (List SearchResult)
  /-- Selector chain invocation: how its response text parsed, or a raise. -/
  selectorCall : Except Unit SelResp
  /-- Generator chain invocation number `i` (0-based): `none` when the
  response text is not valid JSON or parsing raised inside the guarded
  block, `some q` when it parsed as a dict, or an outer raise. -/
  generatorCall : Nat → Except Unit (Option QDict)
  /-- Reviewer chain invocation number `i` (0-based): the free-text
  feedback, or a raise. -/
  reviewerCall : Nat → Except Unit String
  /-- Publisher (linkedin) chain invocation: the post text, or a raise. -/
  linkedinCall : Except Unit String

/- ---------------------------------------------------------------- -/
/- Node output patches and the engine's merge                       -/
/- ---------------------------------------------------------------- -/

/-- A node's output patch: for each state key, `none` means the key is
absent from the returned dict, `some v` means the patch sets it to `v`.
`topic` is never written by any node. -/
structure Patch where
  research_queries : Option (List String) := none
  papers : Option (List Paper) := none
  selected_paper : Option (Option SelDict) := none
  generated_question : Option (Option QDict) := none
  linkedin_post : Option (Option String) := none
  feedback : Option (Option String) := none
  iteration : Option IterField := none
deriving DecidableEq, Repr

/-- The engine's merge: shallow overwrite of exactly the keys present in
the patch; absent keys are left untouched. -/
def applyPatch (st : AgentState) (p : Patch) : AgentState :=
  { topic := st.topic
    research_queries := p.research_queries.getD st.research_queries
    papers := p.papers.getD st.papers
    selected_paper := p.selected_paper.getD st.selected_paper
    generated_question := p.generated_question.getD st.generated_question
    linkedin_post := p.linkedin_post.getD st.linkedin_post
    feedback := p.feedback.getD st.feedback
    iteration := p.iteration.getD st.iteration }

/-- A node's result: the patch together with a flag recording whether
the node invoked the reasoning service on this execution; `Except.error`
is an uncaught Python exception escaping the node. -/
abbrev NodeResult := Except Unit (Patch × Bool)

/- ---------------------------------------------------------------- -/
/- planner_node (nodes/planner.py)                                  -/
/- ---------------------------------------------------------------- -/

/-- planner_node: invoke the reasoning chain (no exception handling —
a raise escapes) and store the parsed query list. -/
def planner_node (orc : Oracle) (_st : AgentState) : NodeResult :=
  match orc.plannerCall with
  | .error e => .error e
  | .ok qs => .ok ({ research_queries := some qs }, true)

/- ---------------------------------------------------------------- -/
/- researcher_node (nodes/researcher.py)                            -/
/- ---------------------------------------------------------------- -/

/-- Query cleanup inside the researcher loop:
`query.strip().strip(DQUOTE).strip(SQUOTE)`. -/
def cleanQuery (q : String) : String :=
  let stripBy (p : Char → Bool) (l : List Char) : List Char :=
    ((l.dropWhile p).reverse.dropWhile p).reverse
  String.mk
    (stripBy (fun c => c == aposChar)
      (stripBy (fun c => c == Char.ofNat 34)
        (stripBy Char.isWhitespace q.toList)))

/-- The inner result loop of `researcher_node`: for each organic result,
read `link`; keep it when the link is truthy and not yet seen, recording
the URL in the dedup set. -/
def addResults : List String → List Paper → List SearchResult →
    List String × List Paper
  | seen, acc, [] => (seen, acc)
  | seen, acc, r :: rs =>
    match r.link with
    | some u =>
      if !pyStrEmpty u && !seen.contains u then
        addResults (u :: seen)
          (acc ++ [⟨r.title.getD "No Title", u,
                    r.snippet.getD "No summary available."⟩]) rs
      else addResults seen acc rs
    | none => addResults seen acc rs

/-- The per-query loop of `researcher_node`: clean the query, call the
provider (a raise on one query is caught and the loop continues), and
fold the first 3 organic results through `addResults`. -/
def researchLoop (orc : Oracle) : List String → List String → List Paper →
    List String × List Paper
  | [], seen, acc => (seen, acc)
  | q :: qs, seen, acc =>
    match orc.searchCall (cleanQuery q) with
    | .error _ => researchLoop orc qs seen acc
    | .ok results =>
      let sa := addResults seen acc (results.take 3)
      researchLoop orc qs sa.1 sa.2

/-- researcher_node: missing key or failed wrapper construction yields
an empty paper list; otherwise run the per-query loop.  Never raises and
never calls the reasoning service. -/
def researcher_node (orc : Oracle) (st : AgentState) : Patch × Bool :=
  if !orc.searchKeyPresent then ({ papers := some [] }, false)
  else if !orc.searchInitOk then ({ papers := some [] }, false)
  else ({ papers := some (researchLoop orc st.research_queries [] []).2 },
        false)

/- ---------------------------------------------------------------- -/
/- selector_node (nodes/selector.py)                                -/
/- ---------------------------------------------------------------- -/

/-- selector_node: empty candidate list short-circuits to `None` without
calling the service; otherwise the call's raise escapes; a
`JSONDecodeError` falls back to `papers[0]`; a JSON value that is not a
dict raises `AttributeError` at the logging `.get` (uncaught); a dict is
stored as-is. -/
def selector_node (orc : Oracle) (st : AgentState) : NodeResult :=
  match st.papers with
  | [] => .ok ({ selected_paper := some none }, false)
  | p :: _ =>
    match orc.selectorCall with
    | .error e => .error e
    | .ok .decodeErr => .ok ({ selected_paper := some (some p.toSel) }, true)
    | .ok .nonDict => .error ()
    | .ok (.dict d) => .ok ({ selected_paper := some (some d) }, true)

/- ---------------------------------------------------------------- -/
/- generator_node (nodes/generator.py)                              -/
/- ---------------------------------------------------------------- -/

/-- Whether an artifact dict has its three content keys present — the
prompt templates subscript `question`, `wrong_answer` and `explanation`,
so a missing one raises `KeyError` at prompt-construction time. -/
def qFieldsOk (q : QDict) : Bool :=
  q.question.isSome && q.wrong_answer.isSome && q.explanation.isSome

/-- Whether the generator's prompt construction succeeds: refinement
mode (truthy feedback and truthy prior artifact) subscripts the prior
artifact's three content keys; creation mode subscripts the paper's
`title`, `summary` and `url`. -/
def generatorPromptOk (p : SelDict) (st : AgentState) : Bool :=
  if optStrTruthy st.feedback && qTruthy st.generated_question then
    match st.generated_question with
    | some q => qFieldsOk q
    | none => false
  else p.title.isSome && p.summary.isSome && p.url.isSome

/-- Post-processing of a successfully parsed generator response, applied
inside the `try` block (any exception there is caught and yields a null
artifact, hence the `Option` result): take the parsed citation (absent
becomes the empty string via `… or `), keep the dict unchanged when the
selected candidate's URL is a substring of it, otherwise overwrite the
citation with `title - authors-or-Unknown (url)`.  `paper` is
subscripted for `url` and `title` here, so an absent key is a caught
`KeyError` → `none`. -/
def ensureCitation (paper : SelDict) (q : QDict) : Option QDict :=
  let c := q.citation.getD ""
  match paper.url with
  | none => none
  | some u =>
    if strContainsSub c u then some q
    else
      match paper.title with
      | none => none
      | some t =>
        let newCit := t ++ " - " ++ paper.authors.getD "Unknown" ++
          " (" ++ u ++ ")"
        some { q with citation := some newCit }

/-- generator_node: falsy selected paper short-circuits to a null
artifact without calling the service.  Refinement mode (truthy feedback
and truthy prior artifact) subscripts the prior artifact's three content
keys while building the prompt inputs — a missing key is an uncaught
`KeyError`; creation mode subscripts the paper's `title/summary/url` in
the prompt — likewise uncaught.  The chain invocation's raise escapes;
a response that fails to parse as a dict yields a null artifact; a dict
is post-processed by `ensureCitation`. -/
def generator_node (orc : Oracle) (gi : Nat) (st : AgentState) : NodeResult :=
  let paper := st.selected_paper
  if !selTruthy paper then
    .ok ({ generated_question := some none }, false)
  else
    let p := paper.getD ⟨none, none, none, none, none⟩
    if !generatorPromptOk p st then .error ()
    else
      match orc.generatorCall gi with
      | .error e => .error e
      | .ok none => .ok ({ generated_question := some none }, true)
      | .ok (some q) =>
        .ok ({ generated_question := some (ensureCitation p q) }, true)

/- ---------------------------------------------------------------- -/
/- reviewer_node (nodes/reviewer.py)                                -/
/- ---------------------------------------------------------------- -/

/-- The reviewer's fixed short-circuit feedback message. -/
def failedMsg : String := "Failed to generate question."

/-- reviewer_node: a falsy artifact short-circuits to the fixed message,
patching only `feedback` and not calling the service.  Otherwise the
prompt subscripts the artifact's three content keys (a missing key is an
uncaught `KeyError`), the chain invocation's raise escapes, and on
success the feedback is stored verbatim and `iteration` is rewritten to
its coerced value plus one. -/
def reviewer_node (orc : Oracle) (ri : Nat) (st : AgentState) : NodeResult :=
  let question := st.generated_question
  if !qTruthy question then
    .ok ({ feedback := some (some failedMsg) }, false)
  else
    let q := question.getD ⟨none, none, none, none⟩
    if !qFieldsOk q then .error ()
    else
      match orc.reviewerCall ri with
      | .error e => .error e
      | .ok fb =>
        .ok ({ feedback := some (some fb)
               iteration := some (.intVal (coerceIter st.iteration + 1)) },
             true)

/- ---------------------------------------------------------------- -/
/- linkedin_node (nodes/linkedin.py)                                -/
/- ---------------------------------------------------------------- -/

/-- linkedin_node (the Publisher): falsy artifact short-circuits to a
null post without calling the service; otherwise the prompt subscripts
the artifact's three content keys (missing key = uncaught `KeyError`),
the chain invocation's raise escapes, and on success the response is
stored as the post. -/
def linkedin_node (orc : Oracle) (st : AgentState) : NodeResult :=
  let question := st.generated_question
  if !qTruthy question then
    .ok ({ linkedin_post := some none }, false)
  else
    let q := question.getD ⟨none, none, none, none⟩
    if !qFieldsOk q then .error ()
    else
      match orc.linkedinCall with
      | .error e => .error e
      | .ok post => .ok ({ linkedin_post := some (some post) }, true)

/- ---------------------------------------------------------------- -/
/- Orchestration engine (graph.py, create_graph + langgraph run)    -/
/- ---------------------------------------------------------------- -/

/-- The stages of the compiled graph, plus the terminal `doneS`. -/
inductive Stage where
  | plannerS
  | researcherS
  | selectorS
  | generatorS
  | reviewerS
  | linkedinS
  | doneS
deriving DecidableEq, Repr

/-- Outcome of one run: the final state (or the uncaught exception that
aborted the run), the number of reviewer executions that performed an
actual judgment, the trace of (actual-judgment?, iteration-after) pairs
recorded after each reviewer execution, and the total number of
reasoning-service invocations made. -/
structure RunResult where
  outcome : Except Unit AgentState
  revCount : Nat
  iters : List (Bool × IterField)
  calls : Nat
deriving Repr

/-- One-run driver: execute nodes in graph order (the fixed edges of
`create_graph`, with `should_continue` resolving the reviewer's outgoing
edge), merging each patch into the state.  `fuel` is the engine's hard
step ceiling on node invocations (`none` = ceiling exceeded, the fatal
systemic error); `gi`/`ri` count generator and actual-reviewer calls to
index the oracle. -/
def stepRun (orc : Oracle) : Nat → Stage → AgentState → Nat → Nat →
    List (Bool × IterField) → Nat → Option RunResult
  | 0, _, _, _, _, _, _ => none
  | fuel + 1, stage, st, gi, ri, tr, nc =>
    match stage with
    | .plannerS =>
      match planner_node orc st with
      | .error _ => some ⟨.error (), ri, tr, nc + 1⟩
      | .ok (p, _) =>
        stepRun orc fuel .researcherS (applyPatch st p) gi ri tr (nc + 1)
    | .researcherS =>
      let pr := researcher_node orc st
      stepRun orc fuel .selectorS (applyPatch st pr.1) gi ri tr nc
    | .selectorS =>
      match selector_node orc st with
      | .error _ => some ⟨.error (), ri, tr, nc + 1⟩
      | .ok (p, called) =>
        stepRun orc fuel .generatorS (applyPatch st p) gi ri tr
          (nc + if called then 1 else 0)
    | .generatorS =>
      match generator_node orc gi st with
      | .error _ => some ⟨.error (), ri, tr, nc⟩
      | .ok (p, called) =>
        stepRun orc fuel .reviewerS (applyPatch st p) (gi + 1) ri tr
          (nc + if called then 1 else 0)
    | .reviewerS =>
      match reviewer_node orc ri st with
      | .error _ => some ⟨.error (), ri, tr, nc⟩
      | .ok (p, actual) =>
        let st2 := applyPatch st p
        let ri2 := if actual then ri + 1 else ri
        let tr2 := tr ++ [(actual, st2.iteration)]
        let nc2 := nc + if actual then 1 else 0
        match should_continue st2 with
        | .linkedin => stepRun orc fuel .linkedinS st2 gi ri2 tr2 nc2
        | .generator => stepRun orc fuel .generatorS st2 gi ri2 tr2 nc2
    | .linkedinS =>
      match linkedin_node orc st with
      | .error _ => some ⟨.error (), ri, tr, nc⟩
      | .ok (p, called) =>
        stepRun orc fuel .doneS (applyPatch st p) gi ri tr
          (nc + if called then 1 else 0)
    | .doneS => some ⟨.ok st, ri, tr, nc⟩

/-- A whole run from the caller's initial state, with the step ceiling
`fuel`. -/
def runAgent (orc : Oracle) (topic : String) (fuel : Nat) :
    Option RunResult :=
  stepRun orc fuel .plannerS (initState topic) 0 0 [] 0

/- ---------------------------------------------------------------- -/
/- Spec-side definitions (stated from the specification's words)    -/
/- ---------------------------------------------------------------- -/

/-- The two next stages named by the specification. -/
inductive NextStage where
  | PUBLISH
  | GENERATE
deriving DecidableEq, Repr

/-- Route names of the code mapped to the specification's stages
(`"linkedin"` is the publish stage, `"generator"` loops back). -/
def routeStage : Route → NextStage
  | .linkedin => .PUBLISH
  | .generator => .GENERATE

/-- Modelled from the spec: the approval classification as the claim
words it — normalize by uppercasing and trimming, approve when the
normalized string equals `"APPROVE"`, or starts with `"APPROVE"`, or
`"APPROVE"` appears as a whitespace-delimited token among the first two
tokens. -/
def approvedSpec (fb : String) : Bool :=
  let n := pyStrip (pyUpper fb)
  n == "APPROVE" || pyStarts n "APPROVE" ||
    ((pySplit n).take 2).contains "APPROVE"

/-- Modelled from the spec: the Continuation Policy as the claim words
it, over the input triple (feedback, iteration, has_artifact) in the
exact precedence (1) cap, (2) approval on non-empty feedback,
(3) missing-artifact stop, (4) loop back. -/
def continuation_spec (feedback : Option String) (iteration : Int)
    (has_artifact : Bool) : NextStage :=
  if iteration ≥ 3 then .PUBLISH
  else
    let nonEmpty :=
      match feedback with
      | some fb => !pyStrEmpty fb
      | none => false
    if nonEmpty && approvedSpec (feedback.getD "") then .PUBLISH
    else if !has_artifact then .PUBLISH
    else .GENERATE

/-- The claim-worded approval classifier coincides with the code's
heuristic definitionally (the claim transcribes the code accurately). -/
theorem approvedSpec_eq_code : ∀ s, approvedSpec s = isApprovedFeedback s :=
  fun _ => rfl

/- ---------------------------------------------------------------- -/
/- Claim C1                                                         -/
/- ---------------------------------------------------------------- -/

/-- C1: the Continuation Policy decides the next stage exactly as the
claim's four-step precedence describes, for every (feedback, iteration,
has_artifact) triple — `should_continue` agrees with the spec-worded
`continuation_spec` on every state — and the approval heuristic
classifies the claim's five example feedback strings as stated. -/
theorem C1_continuation_policy :
    (∀ st : AgentState,
      routeStage (should_continue st) =
        continuation_spec st.feedback (coerceIter st.iteration)
          (qTruthy st.generated_question)) ∧
    isApprovedFeedback "APPROVE" = true ∧
    isApprovedFeedback "Approve, nice work" = true ∧
    isApprovedFeedback "ok APPROVE great" = true ∧
    isApprovedFeedback "This needs more depth" = false ∧
    isApprovedFeedback
      ("great but I wouldn" ++ aposStr ++ "t APPROVE this") = false := by
  refine ⟨?_, by decide, by decide, by decide, by decide, by decide⟩
  intro st
  unfold should_continue continuation_spec
  by_cases h3 : coerceIter st.iteration ≥ 3
  · simp [h3, routeStage]
  · cases hfb : st.feedback with
    | none =>
      simp only [h3, if_false, hfb]
      by_cases hq : qTruthy st.generated_question <;>
        simp [hq, routeStage]
    | some fb =>
      simp only [h3, if_false, hfb]
      by_cases he : pyStrEmpty fb <;>
        by_cases ha : isApprovedFeedback fb <;>
        by_cases hq : qTruthy st.generated_question <;>
          simp [he, ha, hq, routeStage, approvedSpec_eq_code]

/- ---------------------------------------------------------------- -/
/- Substring lemmas                                                 -/
/- ---------------------------------------------------------------- -/

/-- A list is a prefix of itself followed by anything. -/
theorem listStarts_append (n rest : List Char) :
    listStarts (n ++ rest) n = true := by
  induction n with
  | nil => cases rest <;> simp [listStarts]
  | cons a as ih => simp [listStarts, ih]

/-- A needle occurs in itself followed by anything. -/
theorem listHasSub_here (n rest : List Char) :
    listHasSub (n ++ rest) n = true := by
  cases n with
  | nil => cases rest <;> simp [listHasSub, listStarts]
  | cons a as =>
    have h := listStarts_append (a :: as) rest
    simp only [List.cons_append] at h
    simp [listHasSub, h]

/-- A needle occurs in any haystack that embeds it contiguously. -/
theorem listHasSub_mid (pre n rest : List Char) :
    listHasSub (pre ++ (n ++ rest)) n = true := by
  induction pre with
  | nil => simpa using listHasSub_here n rest
  | cons a as ih => simp [listHasSub, ih]

/-- The Python substring test succeeds on an explicit embedding. -/
theorem strContains_mid (a u b : String) :
    strContainsSub (a ++ u ++ b) u = true := by
  have h : (a ++ u ++ b).toList = a.toList ++ (u.toList ++ b.toList) := by
    simp [String.toList]
  simp only [strContainsSub, h]
  exact listHasSub_mid a.toList u.toList b.toList

/- ---------------------------------------------------------------- -/
/- Claim C5                                                         -/
/- ---------------------------------------------------------------- -/

/-- Equation: no URL key on the selected dict means the caught KeyError
yields a null artifact. -/
theorem ensureCitation_no_url (d : SelDict) (q : QDict) (hu : d.url = none) :
    ensureCitation d q = none := by
  simp [ensureCitation, hu]

/-- Equation: when the parsed citation already contains the URL, the
parsed dict is kept unchanged. -/
theorem ensureCitation_keep (d : SelDict) (q : QDict) (u : String)
    (hu : d.url = some u)
    (hc : strContainsSub (q.citation.getD "") u = true) :
    ensureCitation d q = some q := by
  simp [ensureCitation, hu, hc]

/-- Equation: citation lacking the URL and no title key on the dict
means the caught KeyError yields a null artifact. -/
theorem ensureCitation_no_title (d : SelDict) (q : QDict) (u : String)
    (hu : d.url = some u)
    (hc : strContainsSub (q.citation.getD "") u = false)
    (ht : d.title = none) :
    ensureCitation d q = none := by
  simp [ensureCitation, hu, hc, ht]

/-- Equation: citation lacking the URL triggers the deterministic
overwrite built from the dict's fields. -/
theorem ensureCitation_overwrite (d : SelDict) (q : QDict) (u t : String)
    (hu : d.url = some u)
    (hc : strContainsSub (q.citation.getD "") u = false)
    (ht : d.title = some t) :
    ensureCitation d q = some { q with citation := some (t ++ " - " ++ d.authors.getD "Unknown" ++ " (" ++ u ++ ")") } := by
  simp [ensureCitation, hu, hc, ht]

/-- Whenever the generator's post-processing yields an artifact, the
selected candidate's URL is present and occurs in the citation; when the
parsed citation lacked it, the citation was overwritten with exactly
`title - authors-or-Unknown (url)`. -/
theorem ensureCitation_spec (d : SelDict) (q out : QDict)
    (h : ensureCitation d q = some out) :
    ∃ u, d.url = some u ∧
      strContainsSub (out.citation.getD "") u = true ∧
      (strContainsSub (q.citation.getD "") u = false →
        ∃ t, d.title = some t ∧
          out.citation = some (t ++ " - " ++ d.authors.getD "Unknown" ++
            " (" ++ u ++ ")")) := by
  cases hu : d.url with
  | none => rw [ensureCitation_no_url d q hu] at h; cases h
  | some u =>
    refine ⟨u, rfl, ?_⟩
    by_cases hc : strContainsSub (q.citation.getD "") u = true
    · rw [ensureCitation_keep d q u hu hc] at h
      obtain rfl : q = out := by simpa using h
      exact ⟨hc, fun hfalse => by rw [hc] at hfalse; cases hfalse⟩
    · have hc2 : strContainsSub (q.citation.getD "") u = false :=
        eq_false_of_ne_true hc
      cases ht : d.title with
      | none => rw [ensureCitation_no_title d q u hu hc2 ht] at h; cases h
      | some t =>
        rw [ensureCitation_overwrite d q u t hu hc2 ht] at h
        have hout2 : { q with citation := some (t ++ " - " ++ d.authors.getD "Unknown" ++ " (" ++ u ++ ")") } = out := by
          simpa using h
        subst hout2
        constructor
        · simpa using strContains_mid
            (t ++ " - " ++ d.authors.getD "Unknown" ++ " (") u ")"
        · intro _
          exact ⟨t, rfl, rfl⟩

/-- Helper: on a successful generator run that produced a non-null
artifact from a parsed response, the artifact is the `ensureCitation`
post-processing of that response against the selected paper dict. -/
theorem generator_parsed_artifact (orc : Oracle) (gi : Nat)
    (st : AgentState) (p : Patch) (b : Bool) (q out : QDict)
    (hnode : generator_node orc gi st = .ok (p, b))
    (hcall : orc.generatorCall gi = .ok (some q))
    (hout : p.generated_question = some (some out)) :
    ∃ d, st.selected_paper = some d ∧ ensureCitation d q = some out := by
  unfold generator_node at hnode
  cases hsel : selTruthy st.selected_paper with
  | false =>
    simp only [hsel, Bool.not_false, if_true, Except.ok.injEq,
      Prod.mk.injEq] at hnode
    obtain ⟨hp, _⟩ := hnode
    rw [← hp] at hout
    simp at hout
  | true =>
    simp only [hsel, Bool.not_true, Bool.false_eq_true, if_false] at hnode
    cases hd : st.selected_paper with
    | none => rw [hd] at hsel; simp [selTruthy] at hsel
    | some d =>
      rw [hd] at hnode
      simp only [Option.getD] at hnode
      cases hpr : generatorPromptOk d st with
      | false =>
        rw [hpr] at hnode
        simp at hnode
      | true =>
        rw [hpr] at hnode
        simp only [Bool.not_true, Bool.false_eq_true, if_false] at hnode
        rw [hcall] at hnode
        simp only [Except.ok.injEq, Prod.mk.injEq] at hnode
        obtain ⟨hp, _⟩ := hnode
        rw [← hp] at hout
        simp only [Patch.generated_question, Option.some.injEq] at hout
        exact ⟨d, rfl, hout⟩

/-- C5: on every Generator pass whose service response parsed as a JSON
object, if the node produced a (non-null) artifact then the selected
candidate has a URL and the post-processed citation contains that URL as
a substring; moreover, when the parsed citation lacked the URL, the
citation was overwritten with exactly `title - authors-or-Unknown (url)`
built from the selected candidate's fields. -/
theorem C5_citation_contains_url (orc : Oracle) (gi : Nat)
    (st : AgentState) (p : Patch) (b : Bool) (q out : QDict)
    (hnode : generator_node orc gi st = .ok (p, b))
    (hcall : orc.generatorCall gi = .ok (some q))
    (hout : p.generated_question = some (some out)) :
    ∃ d u, st.selected_paper = some d ∧ d.url = some u ∧
      strContainsSub (out.citation.getD "") u = true ∧
      (strContainsSub (q.citation.getD "") u = false →
        ∃ t, d.title = some t ∧
          out.citation = some (t ++ " - " ++ d.authors.getD "Unknown" ++
            " (" ++ u ++ ")")) := by
  obtain ⟨d, hd, hec⟩ :=
    generator_parsed_artifact orc gi st p b q out hnode hcall hout
  obtain ⟨u, hu, hrest⟩ := ensureCitation_spec d q out hec
  exact ⟨d, u, hd, hu, hrest⟩

/- ---------------------------------------------------------------- -/
/- Claim C7                                                         -/
/- ---------------------------------------------------------------- -/

/-- Invariants of the researcher's inner result loop: every collected
paper's URL is in the dedup set, the collected URLs are pairwise
distinct, at most one paper is added per result, and the dedup set only
grows. -/
theorem addResults_spec :
    ∀ (rs : List SearchResult) (seen : List String) (acc : List Paper),
    (∀ p ∈ acc, p.url ∈ seen) → ((acc.map Paper.url).Nodup) →
    (∀ p ∈ (addResults seen acc rs).2, p.url ∈ (addResults seen acc rs).1) ∧
    ((addResults seen acc rs).2.map Paper.url).Nodup ∧
    (addResults seen acc rs).2.length ≤ acc.length + rs.length ∧
    (∀ u ∈ seen, u ∈ (addResults seen acc rs).1) := by
  intro rs
  induction rs with
  | nil =>
    intro seen acc h1 h2
    exact ⟨h1, h2, Nat.le_add_right _ _, fun u hu => hu⟩
  | cons r rs ih =>
    intro seen acc h1 h2
    cases hl : r.link with
    | none =>
      simp only [addResults, hl]
      obtain ⟨a1, a2, a3, a4⟩ := ih seen acc h1 h2
      refine ⟨a1, a2, ?_, a4⟩
      simp only [List.length_cons]
      omega
    | some u =>
      simp only [addResults, hl]
      by_cases hkeep : (!pyStrEmpty u && !seen.contains u) = true
      · rw [if_pos hkeep]
        have hnotin : u ∉ seen := by
          have h := ((Bool.and_eq_true _ _).mp hkeep).2
          simpa using h
        set np : Paper := ⟨r.title.getD "No Title", u,
          r.snippet.getD "No summary available."⟩ with hnp
        have h1b : ∀ p ∈ acc ++ [np], p.url ∈ u :: seen := by
          intro p hp
          rcases List.mem_append.mp hp with hp | hp
          · exact List.mem_cons_of_mem _ (h1 p hp)
          · have hpnp : p = np := by simpa using hp
            subst hpnp
            simp [hnp]
        have hunotacc : u ∉ acc.map Paper.url := by
          intro hm
          obtain ⟨p, hp, hpu⟩ := List.mem_map.mp hm
          exact hnotin (hpu ▸ h1 p hp)
        have h2b : ((acc ++ [np]).map Paper.url).Nodup := by
          rw [List.map_append, List.nodup_append]
          refine ⟨h2, by simp, ?_⟩
          intro x hx hx2
          have hxu : x = u := by simpa [hnp] using hx2
          exact hunotacc (hxu ▸ hx)
        obtain ⟨a1, a2, a3, a4⟩ := ih (u :: seen) (acc ++ [np]) h1b h2b
        refine ⟨a1, a2, ?_, fun v hv => a4 v (List.mem_cons_of_mem _ hv)⟩
        have hlen : (acc ++ [np]).length = acc.length + 1 := by simp
        simp only [List.length_cons]
        omega
      · rw [if_neg hkeep]
        obtain ⟨a1, a2, a3, a4⟩ := ih seen acc h1 h2
        refine ⟨a1, a2, ?_, a4⟩
        simp only [List.length_cons]
        omega

/-- Invariants of the researcher's per-query loop: collected URLs stay
pairwise distinct and at most 3 candidates are added per query. -/
theorem researchLoop_spec (orc : Oracle) :
    ∀ (qs : List String) (seen : List String) (acc : List Paper),
    (∀ p ∈ acc, p.url ∈ seen) → ((acc.map Paper.url).Nodup) →
    (∀ p ∈ (researchLoop orc qs seen acc).2,
      p.url ∈ (researchLoop orc qs seen acc).1) ∧
    ((researchLoop orc qs seen acc).2.map Paper.url).Nodup ∧
    (researchLoop orc qs seen acc).2.length ≤ acc.length + 3 * qs.length := by
  intro qs
  induction qs with
  | nil =>
    intro seen acc h1 h2
    refine ⟨?_, ?_, ?_⟩ <;> simp only [researchLoop]
    · exact h1
    · exact h2
    · simp
  | cons q qs ih =>
    intro seen acc h1 h2
    cases hs : orc.searchCall (cleanQuery q) with
    | error e =>
      simp only [researchLoop, hs]
      obtain ⟨a1, a2, a3⟩ := ih seen acc h1 h2
      refine ⟨a1, a2, ?_⟩
      simp only [List.length_cons]
      omega
    | ok results =>
      simp only [researchLoop, hs]
      obtain ⟨b1, b2, b3, _⟩ := addResults_spec (results.take 3) seen acc h1 h2
      obtain ⟨a1, a2, a3⟩ := ih (addResults seen acc (results.take 3)).1
        (addResults seen acc (results.take 3)).2 b1 b2
      refine ⟨a1, a2, ?_⟩
      have htake : (results.take 3).length ≤ 3 := by
        simp
      simp only [List.length_cons]
      omega

/-- C7: the Researcher takes at most the first 3 organic results per
query and keeps one global URL dedup set across all queries, so the
candidate list it emits has pairwise-distinct URLs (every URL appears at
most once, even across queries) and at most 3 entries per query. -/
theorem C7_researcher_dedup (orc : Oracle) (st : AgentState) :
    ((((researcher_node orc st).1.papers.getD []).map Paper.url).Nodup) ∧
    ((researcher_node orc st).1.papers.getD []).length ≤
      3 * st.research_queries.length := by
  unfold researcher_node
  cases hk : orc.searchKeyPresent with
  | false => simp
  | true =>
    cases hi : orc.searchInitOk with
    | false => simp
    | true =>
      simp only [Bool.not_true, Bool.false_eq_true, if_false,
        Bool.not_false, if_true]
      obtain ⟨_, a2, a3⟩ := researchLoop_spec orc st.research_queries [] []
        (by simp) (by simp)
      constructor
      · simpa using a2
      · simpa using a3

/- ---------------------------------------------------------------- -/
/- Generator output characterization (shared helper)                -/
/- ---------------------------------------------------------------- -/

/-- Every successful generator execution patches exactly the
`generated_question` key, and the stored artifact is either null or the
`ensureCitation` post-processing of a response that parsed as a dict. -/
theorem generator_node_ok (orc : Oracle) (gi : Nat) (st : AgentState)
    (p : Patch) (b : Bool) (h : generator_node orc gi st = .ok (p, b)) :
    ∃ go, p = ⟨none, none, none, some go, none, none, none⟩ ∧
      (go = none ∨ ∃ d q, st.selected_paper = some d ∧
        orc.generatorCall gi = .ok (some q) ∧ go = ensureCitation d q) := by
  unfold generator_node at h
  cases hsel : selTruthy st.selected_paper with
  | false =>
    simp only [hsel, Bool.not_false, if_true, Except.ok.injEq,
      Prod.mk.injEq] at h
    exact ⟨none, h.1.symm, Or.inl rfl⟩
  | true =>
    simp only [hsel, Bool.not_true, Bool.false_eq_true, if_false] at h
    cases hd : st.selected_paper with
    | none => rw [hd] at hsel; simp [selTruthy] at hsel
    | some d =>
      rw [hd] at h
      simp only [Option.getD] at h
      cases hpr : generatorPromptOk d st with
      | false => rw [hpr] at h; simp at h
      | true =>
        rw [hpr] at h
        simp only [Bool.not_true, Bool.false_eq_true, if_false] at h
        cases hgc : orc.generatorCall gi with
        | error e => rw [hgc] at h; simp at h
        | ok oq =>
          rw [hgc] at h
          cases oq with
          | none =>
            simp only [Except.ok.injEq, Prod.mk.injEq] at h
            exact ⟨none, h.1.symm, Or.inl rfl⟩
          | some q =>
            simp only [Except.ok.injEq, Prod.mk.injEq] at h
            exact ⟨ensureCitation d q, h.1.symm,
              Or.inr ⟨d, q, rfl, rfl, rfl⟩⟩

/-- The post-processing never touches the three content keys. -/
theorem ensureCitation_content (d : SelDict) (q out : QDict)
    (h : ensureCitation d q = some out) :
    out.question = q.question ∧ out.wrong_answer = q.wrong_answer ∧
      out.explanation = q.explanation := by
  cases hu : d.url with
  | none => rw [ensureCitation_no_url d q hu] at h; cases h
  | some u =>
    by_cases hc : strContainsSub (q.citation.getD "") u = true
    · rw [ensureCitation_keep d q u hu hc] at h
      obtain rfl : q = out := by simpa using h
      exact ⟨rfl, rfl, rfl⟩
    · have hc2 := eq_false_of_ne_true hc
      cases ht : d.title with
      | none => rw [ensureCitation_no_title d q u hu hc2 ht] at h; cases h
      | some t =>
        rw [ensureCitation_overwrite d q u t hu hc2 ht] at h
        have h2 : { q with citation := some (t ++ " - " ++ d.authors.getD "Unknown" ++ " (" ++ u ++ ")") } = out := by
          simpa using h
        subst h2
        exact ⟨rfl, rfl, rfl⟩

/- ---------------------------------------------------------------- -/
/- Concrete fixtures for counterexamples and witnesses              -/
/- ---------------------------------------------------------------- -/

/-- A concrete research candidate. -/
def paperX : Paper := ⟨"T", "http://x", "S"⟩

/-- A concrete oracle in which every collaborator behaves. -/
def baseOracle : Oracle :=
  { plannerCall := .ok ["q1"]
    searchKeyPresent := true
    searchInitOk := true
    searchCall := fun _ => .ok [⟨some "http://x", some "T", some "S"⟩]
    selectorCall := .ok .decodeErr
    generatorCall := fun _ =>
      .ok (some ⟨some "Q", some "W", some "E", some "c http://x d"⟩)
    reviewerCall := fun _ => .ok "APPROVE"
    linkedinCall := .ok "POST" }

/-- A concrete state holding one candidate, with it selected. -/
def stWithPaper : AgentState :=
  { initState "topic" with
    papers := [paperX]
    selected_paper := some paperX.toSel }

/- ---------------------------------------------------------------- -/
/- Claim C4                                                         -/
/- ---------------------------------------------------------------- -/

/-- C4 counterexample: a Generator pass whose service response parses as
the empty JSON object produces a NON-null artifact whose only present
key is the post-processed citation — the artifact is neither entirely
null nor fully populated with all four text keys, refuting the claimed
all-or-nothing shape. -/
theorem C4_counterexample :
    generator_node
        { baseOracle with
          generatorCall := fun _ => .ok (some ⟨none, none, none, none⟩) }
        0 stWithPaper =
      .ok ({ generated_question := some (some ⟨none, none, none, some "T - Unknown (http://x)"⟩) }, true) ∧
    (some (⟨none, none, none, some "T - Unknown (http://x)"⟩ : QDict) ≠
      (none : Option QDict)) ∧
    (⟨none, none, none, some "T - Unknown (http://x)"⟩ : QDict).question =
      none := by
  refine ⟨rfl, by simp, rfl⟩

/-- C4 amended: the Generator's artifact is either null or mirrors the
parsed response — its `question`, `wrong_answer` and `explanation` keys
are present exactly when the parsed JSON object contained them (only the
citation is possibly rewritten), so an artifact may be partially
populated and downstream consumers can observe that. -/
theorem C4_artifact_mirrors_response (orc : Oracle) (gi : Nat)
    (st : AgentState) (p : Patch) (b : Bool) (out : QDict)
    (hnode : generator_node orc gi st = .ok (p, b))
    (hout : p.generated_question = some (some out)) :
    ∃ q, orc.generatorCall gi = .ok (some q) ∧
      out.question = q.question ∧ out.wrong_answer = q.wrong_answer ∧
      out.explanation = q.explanation := by
  obtain ⟨go, hp, hcases⟩ := generator_node_ok orc gi st p b hnode
  subst hp
  have hgo : go = some out := by simpa using hout
  rcases hcases with rfl | ⟨d, q, hd, hgc, hgo2⟩
  · cases hgo
  · exact ⟨q, hgc,
      ensureCitation_content d q out (hgo2.symm.trans hgo)⟩

/- ---------------------------------------------------------------- -/
/- Claim C6                                                         -/
/- ---------------------------------------------------------------- -/

/-- C6 counterexample: with one candidate present, a selection response
that is valid JSON but not an object (modelled by `SelResp.nonDict`,
e.g. the literal `null`) cannot be parsed as the expected structured
object, yet the Selector does not fall back to `papers[0]` — the
uncaught `AttributeError` raised at the `selected_paper.get` call
escapes the node, refuting the claimed deterministic fallback. -/
theorem C6_counterexample :
    stWithPaper.papers = [paperX] ∧
    selector_node { baseOracle with selectorCall := .ok .nonDict }
      stWithPaper = .error () := ⟨rfl, rfl⟩

/-- C6 amended: with no candidates the Selector returns null without
calling the reasoning service; with candidates, the fallback to the
first candidate happens exactly when the response is not valid JSON
(`JSONDecodeError`), and a response parsing as a JSON object is stored
as-is (a valid-JSON non-object response instead raises and aborts). -/
theorem C6_selector_fallback (orc : Oracle) (st : AgentState) :
    (st.papers = [] →
      selector_node orc st = .ok ({ selected_paper := some none }, false)) ∧
    (∀ p rest, st.papers = p :: rest → orc.selectorCall = .ok .decodeErr →
      selector_node orc st =
        .ok ({ selected_paper := some (some p.toSel) }, true)) ∧
    (∀ p rest d, st.papers = p :: rest → orc.selectorCall = .ok (.dict d) →
      selector_node orc st =
        .ok ({ selected_paper := some (some d) }, true)) := by
  refine ⟨fun h => ?_, fun p rest h1 h2 => ?_, fun p rest d h1 h2 => ?_⟩
  · simp [selector_node, h]
  · simp [selector_node, h1, h2]
  · simp [selector_node, h1, h2]

/- ---------------------------------------------------------------- -/
/- Claim C8                                                         -/
/- ---------------------------------------------------------------- -/

/-- C8: on a null artifact the Reviewer short-circuits — it returns the
fixed message `"Failed to generate question."` without calling the
reasoning service (the `false` flag), its patch contains only the
`feedback` key, and merging that patch changes the state's feedback
alone, leaving every other field, in particular `iteration`,
untouched. -/
theorem C8_reviewer_short_circuit (orc : Oracle) (ri : Nat)
    (st : AgentState) (h : st.generated_question = none) :
    reviewer_node orc ri st =
      .ok ({ feedback := some (some failedMsg) }, false) ∧
    applyPatch st { feedback := some (some failedMsg) } =
      { st with feedback := some failedMsg } := by
  refine ⟨?_, rfl⟩
  unfold reviewer_node
  rw [h]
  rfl

/- ---------------------------------------------------------------- -/
/- Claim C10                                                        -/
/- ---------------------------------------------------------------- -/

/-- C10: when `iteration` holds a non-integer value, the two readers
coerce it to 0 — the Continuation Policy decides exactly as it would at
iteration 0 (total, no crash, and the cap branch is not forced), and a
Reviewer execution that performs an actual judgment writes
`iteration = 1` (0 + 1), restoring a well-formed integer counter. -/
theorem C10_noninteger_iteration (orc : Oracle) (ri : Nat)
    (st : AgentState) (h : st.iteration = .nonInt) :
    should_continue st =
      should_continue { st with iteration := .intVal 0 } ∧
    (∀ p b, reviewer_node orc ri st = .ok (p, b) → b = true →
      p.iteration = some (.intVal 1)) := by
  constructor
  · unfold should_continue
    rw [h]
    rfl
  · intro p b hnode hb
    subst hb
    unfold reviewer_node at hnode
    cases hq : qTruthy st.generated_question with
    | false =>
      simp only [hq, Bool.not_false, if_true, Except.ok.injEq,
        Prod.mk.injEq] at hnode
      exact absurd hnode.2 (by simp)
    | true =>
      simp only [hq, Bool.not_true, Bool.false_eq_true, if_false] at hnode
      cases hfo : qFieldsOk (st.generated_question.getD
          ⟨none, none, none, none⟩) with
      | false => rw [hfo] at hnode; simp at hnode
      | true =>
        rw [hfo] at hnode
        simp only [Bool.not_true, Bool.false_eq_true, if_false] at hnode
        cases hrc : orc.reviewerCall ri with
        | error e => rw [hrc] at hnode; simp at hnode
        | ok fb =>
          rw [hrc] at hnode
          simp only [Except.ok.injEq, Prod.mk.injEq] at hnode
          rw [← hnode.1]
          simp [h, coerceIter]

/- ---------------------------------------------------------------- -/
/- Run-level lemmas for the loop claims                             -/
/- ---------------------------------------------------------------- -/

/-- Every successful reviewer execution either short-circuits (falsy
artifact, no service call, patch holding only the fixed feedback) or
performs an actual judgment (service call, patch holding the verbatim
feedback and the incremented coerced iteration). -/
theorem reviewer_node_ok (orc : Oracle) (ri : Nat) (st : AgentState)
    (p : Patch) (b : Bool) (h : reviewer_node orc ri st = .ok (p, b)) :
    (b = false ∧ qTruthy st.generated_question = false ∧
      p = ⟨none, none, none, none, none, some (some failedMsg), none⟩) ∨
    (b = true ∧ qTruthy st.generated_question = true ∧
      ∃ fb, orc.reviewerCall ri = .ok fb ∧
        p = ⟨none, none, none, none, none, some (some fb),
          some (.intVal (coerceIter st.iteration + 1))⟩) := by
  unfold reviewer_node at h
  cases hq : qTruthy st.generated_question with
  | false =>
    simp only [hq, Bool.not_false, if_true, Except.ok.injEq,
      Prod.mk.injEq] at h
    exact Or.inl ⟨h.2.symm, rfl, h.1.symm⟩
  | true =>
    simp only [hq, Bool.not_true, Bool.false_eq_true, if_false] at h
    cases hfo : qFieldsOk (st.generated_question.getD
        ⟨none, none, none, none⟩) with
    | false => rw [hfo] at h; simp at h
    | true =>
      rw [hfo] at h
      simp only [Bool.not_true, Bool.false_eq_true, if_false] at h
      cases hrc : orc.reviewerCall ri with
      | error e => rw [hrc] at h; simp at h
      | ok fb =>
        rw [hrc] at h
        simp only [Except.ok.injEq, Prod.mk.injEq] at h
        exact Or.inr ⟨h.2.symm, rfl, fb, rfl, h.1.symm⟩

/-- The iteration cap forces the publish route. -/
theorem should_continue_cap (st : AgentState)
    (h : coerceIter st.iteration ≥ 3) :
    should_continue st = .linkedin := by
  unfold should_continue
  rw [if_pos h]

/-- The looping route is taken only below the cap and with a truthy
artifact in the state. -/
theorem should_continue_eq_generator (st : AgentState)
    (h : should_continue st = .generator) :
    coerceIter st.iteration < 3 ∧ qTruthy st.generated_question = true := by
  unfold should_continue at h
  split at h
  · cases h
  · split at h
    · cases h
    · split at h
      · cases h
      · rename_i h3 _ hq
        refine ⟨by omega, ?_⟩
        simpa using hq

/-- After the reviewer's short-circuit patch is merged, the policy
always publishes: the fixed message is not an approval, and the artifact
the reviewer found falsy is still falsy. -/
theorem route_after_short_patch (st : AgentState)
    (hq : qTruthy st.generated_question = false) :
    should_continue (applyPatch st
      ⟨none, none, none, none, none, some (some failedMsg), none⟩) =
      .linkedin := by
  have happ : (!pyStrEmpty failedMsg && isApprovedFeedback failedMsg) =
      false := by decide
  unfold should_continue applyPatch
  simp [hq, happ]

/-- Two engine steps from the publish stage always finish: the publisher
node runs (its outcome recorded) and the run reaches the terminal stage;
the judgment count and trace are unchanged. -/
theorem linkedin_stage_spec (orc : Oracle) (k : Nat) (st : AgentState)
    (gi ri : Nat) (tr : List (Bool × IterField)) (nc : Nat) :
    ∃ res, stepRun orc (k + 1 + 1) .linkedinS st gi ri tr nc = some res ∧
      res.revCount = ri ∧ res.iters = tr ∧
      ((linkedin_node orc st = .error () ∧ res.outcome = .error ()) ∨
        ∃ p c, linkedin_node orc st = .ok (p, c) ∧
          res.outcome = .ok (applyPatch st p) ∧
          res.calls = nc + if c then 1 else 0) := by
  cases hl : linkedin_node orc st with
  | error e =>
    cases e
    refine ⟨⟨.error (), ri, tr, nc⟩, ?_, rfl, rfl, Or.inl ⟨rfl, rfl⟩⟩
    simp [stepRun, hl]
  | ok pc =>
    obtain ⟨p, c⟩ := pc
    refine ⟨⟨.ok (applyPatch st p), ri, tr, nc + if c then 1 else 0⟩,
      ?_, rfl, rfl, Or.inr ⟨p, c, rfl, rfl, rfl⟩⟩
    simp [stepRun, hl]

/-- The expected trace segment contributed by the actual judgments
numbered `ri+1 … c`. -/
def specTrace (ri c : Nat) : List (Bool × IterField) :=
  (List.range (c - ri)).map
    (fun k => (true, IterField.intVal (Int.ofNat (ri + k + 1))))

/-- An empty segment when no judgment happened. -/
theorem specTrace_self (ri : Nat) : specTrace ri ri = [] := by
  simp [specTrace]

/-- Peeling one judgment off the front of the expected segment. -/
theorem specTrace_cons (ri c : Nat) (h : ri < c) :
    specTrace ri c =
      (true, IterField.intVal (Int.ofNat (ri + 1))) ::
        specTrace (ri + 1) c := by
  unfold specTrace
  obtain ⟨d, rfl⟩ : ∃ d, c = ri + 1 + d := ⟨c - (ri + 1), by omega⟩
  have h1 : ri + 1 + d - ri = d + 1 := by omega
  have h2 : ri + 1 + d - (ri + 1) = d := by omega
  rw [h1, h2, List.range_succ_eq_map, List.map_cons, List.map_map]
  congr 1
  apply List.map_congr_left
  intro k _
  simp only [Function.comp_apply]
  congr 3
  omega

/-- One engine step at the planner stage (success). -/
theorem stepRun_planner (orc : Oracle) (f : Nat) (st : AgentState)
    (gi ri : Nat) (tr : List (Bool × IterField)) (nc : Nat)
    (p : Patch) (b : Bool) (h : planner_node orc st = .ok (p, b)) :
    stepRun orc (f + 1) .plannerS st gi ri tr nc =
      stepRun orc f .researcherS (applyPatch st p) gi ri tr (nc + 1) := by
  simp only [stepRun, h]

/-- One engine step at the planner stage (uncaught exception). -/
theorem stepRun_planner_err (orc : Oracle) (f : Nat) (st : AgentState)
    (gi ri : Nat) (tr : List (Bool × IterField)) (nc : Nat)
    (h : planner_node orc st = .error ()) :
    stepRun orc (f + 1) .plannerS st gi ri tr nc =
      some ⟨.error (), ri, tr, nc + 1⟩ := by
  simp only [stepRun, h]

/-- One engine step at the researcher stage (it never raises). -/
theorem stepRun_researcher (orc : Oracle) (f : Nat) (st : AgentState)
    (gi ri : Nat) (tr : List (Bool × IterField)) (nc : Nat) :
    stepRun orc (f + 1) .researcherS st gi ri tr nc =
      stepRun orc f .selectorS
        (applyPatch st (researcher_node orc st).1) gi ri tr nc := by
  simp only [stepRun]

/-- One engine step at the selector stage (success). -/
theorem stepRun_selector (orc : Oracle) (f : Nat) (st : AgentState)
    (gi ri : Nat) (tr : List (Bool × IterField)) (nc : Nat)
    (p : Patch) (b : Bool) (h : selector_node orc st = .ok (p, b)) :
    stepRun orc (f + 1) .selectorS st gi ri tr nc =
      stepRun orc f .generatorS (applyPatch st p) gi ri tr
        (nc + if b then 1 else 0) := by
  simp only [stepRun, h]

/-- One engine step at the selector stage (uncaught exception). -/
theorem stepRun_selector_err (orc : Oracle) (f : Nat) (st : AgentState)
    (gi ri : Nat) (tr : List (Bool × IterField)) (nc : Nat)
    (h : selector_node orc st = .error ()) :
    stepRun orc (f + 1) .selectorS st gi ri tr nc =
      some ⟨.error (), ri, tr, nc + 1⟩ := by
  simp only [stepRun, h]

/-- One engine step at the generator stage (success). -/
theorem stepRun_generator (orc : Oracle) (f : Nat) (st : AgentState)
    (gi ri : Nat) (tr : List (Bool × IterField)) (nc : Nat)
    (p : Patch) (b : Bool) (h : generator_node orc gi st = .ok (p, b)) :
    stepRun orc (f + 1) .generatorS st gi ri tr nc =
      stepRun orc f .reviewerS (applyPatch st p) (gi + 1) ri tr
        (nc + if b then 1 else 0) := by
  simp only [stepRun, h]

/-- One engine step at the generator stage (uncaught exception). -/
theorem stepRun_generator_err (orc : Oracle) (f : Nat) (st : AgentState)
    (gi ri : Nat) (tr : List (Bool × IterField)) (nc : Nat)
    (h : generator_node orc gi st = .error ()) :
    stepRun orc (f + 1) .generatorS st gi ri tr nc =
      some ⟨.error (), ri, tr, nc⟩ := by
  simp only [stepRun, h]

/-- One engine step at the reviewer stage, exiting to the publisher. -/
theorem stepRun_reviewer_exit (orc : Oracle) (f : Nat) (st : AgentState)
    (gi ri : Nat) (tr : List (Bool × IterField)) (nc : Nat)
    (p : Patch) (b : Bool) (h : reviewer_node orc ri st = .ok (p, b))
    (hr : should_continue (applyPatch st p) = .linkedin) :
    stepRun orc (f + 1) .reviewerS st gi ri tr nc =
      stepRun orc f .linkedinS (applyPatch st p) gi
        (if b then ri + 1 else ri)
        (tr ++ [(b, (applyPatch st p).iteration)])
        (nc + if b then 1 else 0) := by
  simp only [stepRun, h, hr]

/-- One engine step at the reviewer stage, looping to the generator. -/
theorem stepRun_reviewer_loop (orc : Oracle) (f : Nat) (st : AgentState)
    (gi ri : Nat) (tr : List (Bool × IterField)) (nc : Nat)
    (p : Patch) (b : Bool) (h : reviewer_node orc ri st = .ok (p, b))
    (hr : should_continue (applyPatch st p) = .generator) :
    stepRun orc (f + 1) .reviewerS st gi ri tr nc =
      stepRun orc f .generatorS (applyPatch st p) gi
        (if b then ri + 1 else ri)
        (tr ++ [(b, (applyPatch st p).iteration)])
        (nc + if b then 1 else 0) := by
  simp only [stepRun, h, hr]

/-- One engine step at the reviewer stage (uncaught exception). -/
theorem stepRun_reviewer_err (orc : Oracle) (f : Nat) (st : AgentState)
    (gi ri : Nat) (tr : List (Bool × IterField)) (nc : Nat)
    (h : reviewer_node orc ri st = .error ()) :
    stepRun orc (f + 1) .reviewerS st gi ri tr nc =
      some ⟨.error (), ri, tr, nc⟩ := by
  simp only [stepRun, h]

/-- The generate-review loop, entered at the reviewer stage with `ri`
actual judgments already performed and `iteration = ri`: when the
budget `g = 2 - ri` of further full cycles is respected by the fuel, the
loop always yields a result; the judgment count never exceeds 3, and the
trace extends `tr` by one `(true, ri+k+1)` entry per actual judgment in
order, optionally closed by a single no-increment short-circuit entry. -/
theorem revLoop_spec (orc : Oracle) :
    ∀ (g ri : Nat), ri + g = 2 →
    ∀ (f : Nat) (st : AgentState) (gi : Nat)
      (tr : List (Bool × IterField)) (nc : Nat),
      st.iteration = .intVal (Int.ofNat ri) →
      2 * g + 3 ≤ f →
      ∃ res : RunResult,
        stepRun orc f .reviewerS st gi ri tr nc = some res ∧
        res.revCount ≤ 3 ∧ ri ≤ res.revCount ∧
        ∃ tail, res.iters = tr ++ specTrace ri res.revCount ++ tail ∧
          (tail = [] ∨
            tail = [(false, IterField.intVal (Int.ofNat res.revCount))]) := by
  intro g
  induction g with
  | zero =>
    intro ri hri f st gi tr nc hit hf
    obtain rfl : ri = 2 := by omega
    obtain ⟨f3, rfl⟩ : ∃ f3, f = f3 + 1 + 1 + 1 := ⟨f - 3, by omega⟩
    cases hrev : reviewer_node orc 2 st with
    | error e =>
      cases e
      refine ⟨⟨.error (), 2, tr, nc⟩,
        stepRun_reviewer_err orc (f3 + 1 + 1) st gi 2 tr nc hrev,
        by show (2 : Nat) ≤ 3; omega, le_refl _, [], ?_, Or.inl rfl⟩
      simp [specTrace_self]
    | ok pb =>
      obtain ⟨p, b⟩ := pb
      rcases reviewer_node_ok orc 2 st p b hrev with
        ⟨hb, hq, hp⟩ | ⟨hb, hq, fb, hfb, hp⟩
      · subst hb
        subst hp
        have hroute := route_after_short_patch st hq
        have hit2 : (applyPatch st ⟨none, none, none, none, none,
            some (some failedMsg), none⟩).iteration =
            .intVal (Int.ofNat 2) := hit
        obtain ⟨res, hstep, hrc, hiters, _⟩ := linkedin_stage_spec orc f3
          (applyPatch st ⟨none, none, none, none, none,
            some (some failedMsg), none⟩)
          gi 2 (tr ++ [(false, IterField.intVal (Int.ofNat 2))]) nc
        refine ⟨res, ?_, by omega, by omega,
          [(false, IterField.intVal (Int.ofNat 2))], ?_, ?_⟩
        · rw [stepRun_reviewer_exit orc (f3 + 1 + 1) st gi 2 tr nc _ _
            hrev hroute, hit2]
          exact hstep
        · rw [hiters, hrc]
          simp [specTrace_self]
        · rw [hrc]
          exact Or.inr rfl
      · subst hb
        subst hp
        have hit2 : (applyPatch st ⟨none, none, none, none, none,
            some (some fb),
            some (.intVal (coerceIter st.iteration + 1))⟩).iteration =
            .intVal (Int.ofNat 3) := by
          show IterField.intVal (coerceIter st.iteration + 1) = _
          rw [hit]
          decide
        have hcap : should_continue (applyPatch st ⟨none, none, none, none,
            none, some (some fb),
            some (.intVal (coerceIter st.iteration + 1))⟩) = .linkedin := by
          apply should_continue_cap
          rw [hit2]
          decide
        have hst : specTrace 2 3 =
            [(true, IterField.intVal (Int.ofNat 3))] := rfl
        obtain ⟨res, hstep, hrc, hiters, _⟩ := linkedin_stage_spec orc f3
          (applyPatch st ⟨none, none, none, none, none, some (some fb),
            some (.intVal (coerceIter st.iteration + 1))⟩)
          gi 3 (tr ++ [(true, IterField.intVal (Int.ofNat 3))]) (nc + 1)
        refine ⟨res, ?_, by omega, by omega, [], ?_, Or.inl rfl⟩
        · rw [stepRun_reviewer_exit orc (f3 + 1 + 1) st gi 2 tr nc _ _
            hrev hcap, hit2]
          exact hstep
        · rw [hiters, hrc, hst]
          simp
  | succ g ih =>
    intro ri hri f st gi tr nc hit hf
    obtain ⟨f3, rfl⟩ : ∃ f3, f = f3 + 1 + 1 + 1 := ⟨f - 3, by omega⟩
    cases hrev : reviewer_node orc ri st with
    | error e =>
      cases e
      refine ⟨⟨.error (), ri, tr, nc⟩,
        stepRun_reviewer_err orc (f3 + 1 + 1) st gi ri tr nc hrev,
        by show ri ≤ 3; omega, le_refl _, [], ?_, Or.inl rfl⟩
      simp [specTrace_self]
    | ok pb =>
      obtain ⟨p, b⟩ := pb
      rcases reviewer_node_ok orc ri st p b hrev with
        ⟨hb, hq, hp⟩ | ⟨hb, hq, fb, hfb, hp⟩
      · subst hb
        subst hp
        have hroute := route_after_short_patch st hq
        have hit2 : (applyPatch st ⟨none, none, none, none, none,
            some (some failedMsg), none⟩).iteration =
            .intVal (Int.ofNat ri) := hit
        obtain ⟨res, hstep, hrc, hiters, _⟩ := linkedin_stage_spec orc f3
          (applyPatch st ⟨none, none, none, none, none,
            some (some failedMsg), none⟩)
          gi ri (tr ++ [(false, IterField.intVal (Int.ofNat ri))]) nc
        refine ⟨res, ?_, by omega, by omega,
          [(false, IterField.intVal (Int.ofNat ri))], ?_, ?_⟩
        · rw [stepRun_reviewer_exit orc (f3 + 1 + 1) st gi ri tr nc _ _
            hrev hroute, hit2]
          exact hstep
        · rw [hiters, hrc]
          simp [specTrace_self]
        · rw [hrc]
          exact Or.inr rfl
      · subst hb
        subst hp
        have hit2 : (applyPatch st ⟨none, none, none, none, none,
            some (some fb),
            some (.intVal (coerceIter st.iteration + 1))⟩).iteration =
            .intVal (Int.ofNat (ri + 1)) := by
          show IterField.intVal (coerceIter st.iteration + 1) = _
          rw [hit]
          simp [coerceIter, Int.ofNat_succ]
        cases hroute : should_continue (applyPatch st ⟨none, none, none,
            none, none, some (some fb),
            some (.intVal (coerceIter st.iteration + 1))⟩) with
        | linkedin =>
          obtain ⟨res, hstep, hrc, hiters, _⟩ := linkedin_stage_spec orc f3
            (applyPatch st ⟨none, none, none, none, none, some (some fb),
              some (.intVal (coerceIter st.iteration + 1))⟩)
            gi (ri + 1)
            (tr ++ [(true, IterField.intVal (Int.ofNat (ri + 1)))]) (nc + 1)
          refine ⟨res, ?_, by omega, by omega, [], ?_, Or.inl rfl⟩
          · rw [stepRun_reviewer_exit orc (f3 + 1 + 1) st gi ri tr nc _ _
              hrev hroute, hit2]
            exact hstep
          · rw [hiters, hrc, specTrace_cons ri (ri + 1) (by omega),
              specTrace_self]
            simp
        | generator =>
          cases hgen : generator_node orc gi (applyPatch st ⟨none, none,
              none, none, none, some (some fb),
              some (.intVal (coerceIter st.iteration + 1))⟩) with
          | error e =>
            cases e
            refine ⟨⟨.error (), ri + 1,
              tr ++ [(true, IterField.intVal (Int.ofNat (ri + 1)))],
              nc + 1⟩, ?_, by show ri + 1 ≤ 3; omega,
              by show ri ≤ ri + 1; omega, [], ?_, Or.inl rfl⟩
            · have e1 := stepRun_reviewer_loop orc (f3 + 1 + 1) st gi ri
                tr nc _ _ hrev hroute
              rw [e1, hit2]
              exact stepRun_generator_err orc (f3 + 1) _ gi (ri + 1)
                (tr ++ [(true, IterField.intVal (Int.ofNat (ri + 1)))])
                (nc + 1) hgen
            · rw [specTrace_cons ri (ri + 1) (by omega), specTrace_self]
              simp
          | ok pg =>
            obtain ⟨pgp, gb⟩ := pg
            obtain ⟨go, hpg, _⟩ := generator_node_ok orc gi _ pgp gb hgen
            subst hpg
            have hit3 : (applyPatch (applyPatch st ⟨none, none, none, none,
                none, some (some fb),
                some (.intVal (coerceIter st.iteration + 1))⟩)
                ⟨none, none, none, some go, none, none, none⟩).iteration =
                .intVal (Int.ofNat (ri + 1)) := hit2
            obtain ⟨res, hstep, h3, hge, tail, hiters, htail⟩ :=
              ih (ri + 1) (by omega) (f3 + 1) _ (gi + 1)
                (tr ++ [(true, IterField.intVal (Int.ofNat (ri + 1)))])
                (nc + 1 + if gb then 1 else 0) hit3 (by omega)
            refine ⟨res, ?_, h3, by omega, tail, ?_, htail⟩
            · have e1 := stepRun_reviewer_loop orc (f3 + 1 + 1) st gi ri
                tr nc _ _ hrev hroute
              rw [e1, hit2]
              have e2 := stepRun_generator orc (f3 + 1) _ gi (ri + 1)
                (tr ++ [(true, IterField.intVal (Int.ofNat (ri + 1)))])
                (nc + 1) _ gb hgen
              exact e2.trans hstep
            · rw [hiters, specTrace_cons ri res.revCount (by omega)]
              simp

/-- The researcher always succeeds, never calls the reasoning service,
and patches exactly the `papers` key. -/
theorem researcher_node_shape (orc : Oracle) (st : AgentState) :
    ∃ P, researcher_node orc st =
      (⟨none, some P, none, none, none, none, none⟩, false) := by
  unfold researcher_node
  cases orc.searchKeyPresent with
  | false => exact ⟨[], rfl⟩
  | true =>
    cases orc.searchInitOk with
    | false => exact ⟨[], rfl⟩
    | true => exact ⟨_, rfl⟩

/-- A successful selector execution patches exactly the
`selected_paper` key. -/
theorem selector_node_shape (orc : Oracle) (st : AgentState)
    (p : Patch) (b : Bool) (h : selector_node orc st = .ok (p, b)) :
    ∃ sp, p = ⟨none, none, some sp, none, none, none, none⟩ := by
  unfold selector_node at h
  cases hps : st.papers with
  | nil =>
    rw [hps] at h
    simp only [Except.ok.injEq, Prod.mk.injEq] at h
    exact ⟨none, h.1.symm⟩
  | cons q rest =>
    rw [hps] at h
    cases hsc : orc.selectorCall with
    | error e => rw [hsc] at h; simp at h
    | ok r =>
      rw [hsc] at h
      cases r with
      | decodeErr =>
        simp only [Except.ok.injEq, Prod.mk.injEq] at h
        exact ⟨some q.toSel, h.1.symm⟩
      | nonDict => simp at h
      | dict d =>
        simp only [Except.ok.injEq, Prod.mk.injEq] at h
        exact ⟨some d, h.1.symm⟩

/- ---------------------------------------------------------------- -/
/- Claim C2                                                         -/
/- ---------------------------------------------------------------- -/

/-- C2: in every run (any oracle behaviour, any feedback content) with
step ceiling at least 11, the engine halts with a result; at most 3
reviewer executions perform an actual judgment; and the reviewer trace
is exactly `specTrace 0 revCount` — iteration starts at 0 and the k-th
actual judgment records iteration k (an increment by exactly 1 each
time, so the counter never decreases) — optionally closed by one
short-circuit entry that leaves the final count unchanged. -/
theorem C2_iteration_bounded (orc : Oracle) (topic : String) (fuel : Nat)
    (hf : 11 ≤ fuel) :
    ∃ res : RunResult, runAgent orc topic fuel = some res ∧
      res.revCount ≤ 3 ∧
      ∃ tail, res.iters = specTrace 0 res.revCount ++ tail ∧
        (tail = [] ∨
          tail = [(false, IterField.intVal (Int.ofNat res.revCount))]) := by
  obtain ⟨f4, rfl⟩ : ∃ f4, fuel = f4 + 1 + 1 + 1 + 1 :=
    ⟨fuel - 4, by omega⟩
  cases hpl : orc.plannerCall with
  | error e =>
    cases e
    have hpn : planner_node orc (initState topic) = .error () := by
      simp [planner_node, hpl]
    refine ⟨⟨.error (), 0, [], 0 + 1⟩,
      stepRun_planner_err orc (f4 + 1 + 1 + 1) (initState topic)
        0 0 [] 0 hpn,
      by show (0 : Nat) ≤ 3; omega, [], ?_, Or.inl rfl⟩
    simp [specTrace_self]
  | ok qs =>
    have hpn : planner_node orc (initState topic) =
        .ok (⟨some qs, none, none, none, none, none, none⟩, true) := by
      simp [planner_node, hpl]
    have s1 := stepRun_planner orc (f4 + 1 + 1 + 1) (initState topic)
      0 0 [] 0 _ true hpn
    obtain ⟨P, hres⟩ := researcher_node_shape orc
      (applyPatch (initState topic) ⟨some qs, none, none, none, none,
        none, none⟩)
    have s2 := stepRun_researcher orc (f4 + 1 + 1)
      (applyPatch (initState topic) ⟨some qs, none, none, none, none,
        none, none⟩) 0 0 [] (0 + 1)
    rw [hres] at s2
    cases hsn : selector_node orc
        (applyPatch (applyPatch (initState topic) ⟨some qs, none, none,
          none, none, none, none⟩)
          ⟨none, some P, none, none, none, none, none⟩) with
    | error e =>
      cases e
      have s3 := stepRun_selector_err orc (f4 + 1)
        (applyPatch (applyPatch (initState topic) ⟨some qs, none, none,
          none, none, none, none⟩)
          ⟨none, some P, none, none, none, none, none⟩) 0 0 [] (0 + 1) hsn
      refine ⟨⟨.error (), 0, [], 0 + 1 + 1⟩,
        s1.trans (s2.trans s3), by show (0 : Nat) ≤ 3; omega,
        [], ?_, Or.inl rfl⟩
      simp [specTrace_self]
    | ok spb =>
      obtain ⟨sp, sb⟩ := spb
      obtain ⟨spp, hspp⟩ := selector_node_shape orc _ sp sb hsn
      subst hspp
      have s3 := stepRun_selector orc (f4 + 1)
        (applyPatch (applyPatch (initState topic) ⟨some qs, none, none,
          none, none, none, none⟩)
          ⟨none, some P, none, none, none, none, none⟩) 0 0 [] (0 + 1)
        _ sb hsn
      cases hgn : generator_node orc 0
          (applyPatch (applyPatch (applyPatch (initState topic)
            ⟨some qs, none, none, none, none, none, none⟩)
            ⟨none, some P, none, none, none, none, none⟩)
            ⟨none, none, some spp, none, none, none, none⟩) with
      | error e =>
        cases e
        have s4 := stepRun_generator_err orc f4
          (applyPatch (applyPatch (applyPatch (initState topic)
            ⟨some qs, none, none, none, none, none, none⟩)
            ⟨none, some P, none, none, none, none, none⟩)
            ⟨none, none, some spp, none, none, none, none⟩) 0 0 []
          (0 + 1 + if sb then 1 else 0) hgn
        refine ⟨⟨.error (), 0, [], 0 + 1 + if sb then 1 else 0⟩,
          s1.trans (s2.trans (s3.trans s4)),
          by show (0 : Nat) ≤ 3; omega, [], ?_, Or.inl rfl⟩
        simp [specTrace_self]
      | ok gpb =>
        obtain ⟨gp, gb⟩ := gpb
        obtain ⟨go, hgo, _⟩ := generator_node_ok orc 0 _ gp gb hgn
        subst hgo
        have s4 := stepRun_generator orc f4
          (applyPatch (applyPatch (applyPatch (initState topic)
            ⟨some qs, none, none, none, none, none, none⟩)
            ⟨none, some P, none, none, none, none, none⟩)
            ⟨none, none, some spp, none, none, none, none⟩) 0 0 []
          (0 + 1 + if sb then 1 else 0) _ gb hgn
        have hit4 : (applyPatch (applyPatch (applyPatch (applyPatch
            (initState topic)
            ⟨some qs, none, none, none, none, none, none⟩)
            ⟨none, some P, none, none, none, none, none⟩)
            ⟨none, none, some spp, none, none, none, none⟩)
            ⟨none, none, none, some go, none, none, none⟩).iteration =
            .intVal (Int.ofNat 0) := rfl
        obtain ⟨res, hstep, h3, _, tail, hiters, htail⟩ :=
          revLoop_spec orc 2 0 rfl f4 _ 1 []
            (0 + 1 + (if sb then 1 else 0) + if gb then 1 else 0)
            hit4 (by omega)
        refine ⟨res, s1.trans (s2.trans (s3.trans (s4.trans hstep))),
          h3, tail, ?_, htail⟩
        simpa using hiters

/- ---------------------------------------------------------------- -/
/- Claim C3                                                         -/
/- ---------------------------------------------------------------- -/

/-- The reasoning service behaves on every call of a run: no call
raises, the selector response is invalid JSON or a JSON object carrying
`title/summary/url`, and every generator response is unparsable or an
object carrying the three content keys.  Search-provider behaviour
(missing key, failed construction, per-query raises, any results) stays
completely unconstrained. -/
def OracleLLMOk (orc : Oracle) : Prop :=
  (∃ qs, orc.plannerCall = .ok qs) ∧
  (orc.selectorCall = .ok .decodeErr ∨
    ∃ d, orc.selectorCall = .ok (.dict d) ∧ d.title.isSome = true ∧
      d.summary.isSome = true ∧ d.url.isSome = true) ∧
  (∀ i, orc.generatorCall i = .ok none ∨
    ∃ q, orc.generatorCall i = .ok (some q) ∧ qFieldsOk q = true) ∧
  (∀ i, ∃ s, orc.reviewerCall i = .ok s) ∧
  (∃ s, orc.linkedinCall = .ok s)

/-- A selected-paper slot whose dict, if any, carries the three keys the
generator's creation prompt subscripts. -/
def PaperOk (sp : Option SelDict) : Prop :=
  ∀ d, sp = some d → d.title.isSome = true ∧ d.summary.isSome = true ∧
    d.url.isSome = true

/-- An artifact slot whose dict, if any, carries the three content keys
the reviewer/publisher/refinement prompts subscript. -/
def ArtOk (gq : Option QDict) : Prop :=
  ∀ a, gq = some a → qFieldsOk a = true

/-- A reviewer raise needs a truthy artifact and either a missing
content key or a raising service call. -/
theorem reviewer_node_err (orc : Oracle) (ri : Nat) (st : AgentState)
    (h : reviewer_node orc ri st = .error ()) :
    qTruthy st.generated_question = true ∧
      (qFieldsOk (st.generated_question.getD ⟨none, none, none, none⟩) =
        false ∨ orc.reviewerCall ri = .error ()) := by
  unfold reviewer_node at h
  cases hq : qTruthy st.generated_question with
  | false => simp [hq] at h
  | true =>
    simp only [hq, Bool.not_true, Bool.false_eq_true, if_false] at h
    refine ⟨rfl, ?_⟩
    cases hfo : qFieldsOk (st.generated_question.getD
        ⟨none, none, none, none⟩) with
    | false => exact Or.inl rfl
    | true =>
      rw [hfo] at h
      simp only [Bool.not_true, Bool.false_eq_true, if_false] at h
      cases hrc : orc.reviewerCall ri with
      | error e => cases e; exact Or.inr rfl
      | ok fb => rw [hrc] at h; simp at h

/-- A generator raise needs a truthy selected paper and either a failed
prompt construction or a raising service call. -/
theorem generator_node_err (orc : Oracle) (gi : Nat) (st : AgentState)
    (h : generator_node orc gi st = .error ()) :
    selTruthy st.selected_paper = true ∧
      (generatorPromptOk (st.selected_paper.getD
        ⟨none, none, none, none, none⟩) st = false ∨
        orc.generatorCall gi = .error ()) := by
  unfold generator_node at h
  cases hsel : selTruthy st.selected_paper with
  | false => simp [hsel] at h
  | true =>
    simp only [hsel, Bool.not_true, Bool.false_eq_true, if_false] at h
    refine ⟨rfl, ?_⟩
    cases hpr : generatorPromptOk (st.selected_paper.getD
        ⟨none, none, none, none, none⟩) st with
    | false => exact Or.inl rfl
    | true =>
      rw [hpr] at h
      simp only [Bool.not_true, Bool.false_eq_true, if_false] at h
      cases hgc : orc.generatorCall gi with
      | error e => cases e; exact Or.inr rfl
      | ok oq =>
        rw [hgc] at h
        cases oq <;> simp at h

/-- Under the paper/artifact invariants the generator's prompt
construction always succeeds. -/
theorem generatorPromptOk_of (d : SelDict) (st : AgentState)
    (hp : d.title.isSome = true ∧ d.summary.isSome = true ∧
      d.url.isSome = true)
    (ha : ArtOk st.generated_question) :
    generatorPromptOk d st = true := by
  unfold generatorPromptOk
  by_cases hc : (optStrTruthy st.feedback &&
      qTruthy st.generated_question) = true
  · rw [if_pos hc]
    cases hgq : st.generated_question with
    | none =>
      exfalso
      have h2 := ((Bool.and_eq_true _ _).mp hc).2
      rw [hgq] at h2
      simp [qTruthy] at h2
    | some a => exact ha a hgq
  · rw [if_neg hc]
    simp [hp.1, hp.2.1, hp.2.2]

/-- The publisher cannot raise when the artifact invariant holds and its
service call returns. -/
theorem linkedin_node_no_raise (orc : Oracle) (st : AgentState)
    (ha : ArtOk st.generated_question)
    (hl : ∃ s, orc.linkedinCall = .ok s) :
    linkedin_node orc st ≠ .error () := by
  intro h
  unfold linkedin_node at h
  cases hq : qTruthy st.generated_question with
  | false => simp [hq] at h
  | true =>
    simp only [hq, Bool.not_true, Bool.false_eq_true, if_false] at h
    cases hgq : st.generated_question with
    | none => rw [hgq] at hq; simp [qTruthy] at hq
    | some a =>
      have hfo := ha a hgq
      rw [hgq] at h
      simp only [Option.getD] at h
      simp only [hfo, Bool.not_true, Bool.false_eq_true, if_false] at h
      obtain ⟨s, hs⟩ := hl
      rw [hs] at h
      simp at h

/-- Under a well-behaved reasoning service and the paper/artifact
invariants, the generate-review loop always reaches the terminal stage
with an `ok` final state — search failures and parse failures never
abort it. -/
theorem revLoop_ok (orc : Oracle) (hok : OracleLLMOk orc) :
    ∀ (g ri : Nat), ri + g = 2 →
    ∀ (f : Nat) (st : AgentState) (gi : Nat)
      (tr : List (Bool × IterField)) (nc : Nat),
      st.iteration = .intVal (Int.ofNat ri) →
      PaperOk st.selected_paper →
      ArtOk st.generated_question →
      2 * g + 3 ≤ f →
      ∃ res final, stepRun orc f .reviewerS st gi ri tr nc = some res ∧
        res.outcome = .ok final := by
  obtain ⟨hplo, hselo, hgeno, hrevo, hposto⟩ := hok
  intro g
  induction g with
  | zero =>
    intro ri hri f st gi tr nc hit hpo hao hf
    obtain rfl : ri = 2 := by omega
    obtain ⟨f3, rfl⟩ : ∃ f3, f = f3 + 1 + 1 + 1 := ⟨f - 3, by omega⟩
    cases hrv : reviewer_node orc 2 st with
    | error e =>
      cases e
      exfalso
      obtain ⟨hq, hbad⟩ := reviewer_node_err orc 2 st hrv
      rcases hbad with hbad | hbad
      · cases hgq : st.generated_question with
        | none => rw [hgq] at hq; simp [qTruthy] at hq
        | some a =>
          have hfa := hao a hgq
          rw [hgq] at hbad
          simp only [Option.getD] at hbad
          rw [hfa] at hbad
          cases hbad
      · obtain ⟨s, hs⟩ := hrevo 2
        rw [hs] at hbad
        cases hbad
    | ok pb =>
      obtain ⟨p, b⟩ := pb
      rcases reviewer_node_ok orc 2 st p b hrv with
        ⟨hb, hq, hp⟩ | ⟨hb, hq, fb, hfb, hp⟩
      · subst hb
        subst hp
        have hroute := route_after_short_patch st hq
        obtain ⟨res, hstep, _, _, hout⟩ := linkedin_stage_spec orc f3
          (applyPatch st ⟨none, none, none, none, none,
            some (some failedMsg), none⟩) gi 2
          (tr ++ [(false, (applyPatch st ⟨none, none, none, none, none,
            some (some failedMsg), none⟩).iteration)]) nc
        rcases hout with ⟨herr, _⟩ | ⟨p2, c2, hl2, houtok, _⟩
        · exact absurd herr (linkedin_node_no_raise orc _ hao hposto)
        · refine ⟨res, _, ?_, houtok⟩
          rw [stepRun_reviewer_exit orc (f3 + 1 + 1) st gi 2 tr nc _ _
            hrv hroute]
          exact hstep
      · subst hb
        subst hp
        have hit2 : (applyPatch st ⟨none, none, none, none, none,
            some (some fb),
            some (.intVal (coerceIter st.iteration + 1))⟩).iteration =
            .intVal (Int.ofNat 3) := by
          show IterField.intVal (coerceIter st.iteration + 1) = _
          rw [hit]
          decide
        have hcap : should_continue (applyPatch st ⟨none, none, none,
            none, none, some (some fb),
            some (.intVal (coerceIter st.iteration + 1))⟩) = .linkedin := by
          apply should_continue_cap
          rw [hit2]
          decide
        obtain ⟨res, hstep, _, _, hout⟩ := linkedin_stage_spec orc f3
          (applyPatch st ⟨none, none, none, none, none, some (some fb),
            some (.intVal (coerceIter st.iteration + 1))⟩) gi 3
          (tr ++ [(true, (applyPatch st ⟨none, none, none, none, none,
            some (some fb),
            some (.intVal (coerceIter st.iteration + 1))⟩).iteration)])
          (nc + 1)
        rcases hout with ⟨herr, _⟩ | ⟨p2, c2, hl2, houtok, _⟩
        · exact absurd herr (linkedin_node_no_raise orc _ hao hposto)
        · refine ⟨res, _, ?_, houtok⟩
          rw [stepRun_reviewer_exit orc (f3 + 1 + 1) st gi 2 tr nc _ _
            hrv hcap]
          exact hstep
  | succ g ih =>
    intro ri hri f st gi tr nc hit hpo hao hf
    obtain ⟨f3, rfl⟩ : ∃ f3, f = f3 + 1 + 1 + 1 := ⟨f - 3, by omega⟩
    cases hrv : reviewer_node orc ri st with
    | error e =>
      cases e
      exfalso
      obtain ⟨hq, hbad⟩ := reviewer_node_err orc ri st hrv
      rcases hbad with hbad | hbad
      · cases hgq : st.generated_question with
        | none => rw [hgq] at hq; simp [qTruthy] at hq
        | some a =>
          have hfa := hao a hgq
          rw [hgq] at hbad
          simp only [Option.getD] at hbad
          rw [hfa] at hbad
          cases hbad
      · obtain ⟨s, hs⟩ := hrevo ri
        rw [hs] at hbad
        cases hbad
    | ok pb =>
      obtain ⟨p, b⟩ := pb
      rcases reviewer_node_ok orc ri st p b hrv with
        ⟨hb, hq, hp⟩ | ⟨hb, hq, fb, hfb, hp⟩
      · subst hb
        subst hp
        have hroute := route_after_short_patch st hq
        obtain ⟨res, hstep, _, _, hout⟩ := linkedin_stage_spec orc f3
          (applyPatch st ⟨none, none, none, none, none,
            some (some failedMsg), none⟩) gi ri
          (tr ++ [(false, (applyPatch st ⟨none, none, none, none, none,
            some (some failedMsg), none⟩).iteration)]) nc
        rcases hout with ⟨herr, _⟩ | ⟨p2, c2, hl2, houtok, _⟩
        · exact absurd herr (linkedin_node_no_raise orc _ hao hposto)
        · refine ⟨res, _, ?_, houtok⟩
          rw [stepRun_reviewer_exit orc (f3 + 1 + 1) st gi ri tr nc _ _
            hrv hroute]
          exact hstep
      · subst hb
        subst hp
        have hit2 : (applyPatch st ⟨none, none, none, none, none,
            some (some fb),
            some (.intVal (coerceIter st.iteration + 1))⟩).iteration =
            .intVal (Int.ofNat (ri + 1)) := by
          show IterField.intVal (coerceIter st.iteration + 1) = _
          rw [hit]
          simp [coerceIter, Int.ofNat_succ]
        cases hroute : should_continue (applyPatch st ⟨none, none, none,
            none, none, some (some fb),
            some (.intVal (coerceIter st.iteration + 1))⟩) with
        | linkedin =>
          obtain ⟨res, hstep, _, _, hout⟩ := linkedin_stage_spec orc f3
            (applyPatch st ⟨none, none, none, none, none, some (some fb),
              some (.intVal (coerceIter st.iteration + 1))⟩) gi (ri + 1)
            (tr ++ [(true, (applyPatch st ⟨none, none, none, none, none,
              some (some fb),
              some (.intVal (coerceIter st.iteration + 1))⟩).iteration)])
            (nc + 1)
          rcases hout with ⟨herr, _⟩ | ⟨p2, c2, hl2, houtok, _⟩
          · exact absurd herr (linkedin_node_no_raise orc _ hao hposto)
          · refine ⟨res, _, ?_, houtok⟩
            rw [stepRun_reviewer_exit orc (f3 + 1 + 1) st gi ri tr nc _ _
              hrv hroute]
            exact hstep
        | generator =>
          cases hgn : generator_node orc gi (applyPatch st ⟨none, none,
              none, none, none, some (some fb),
              some (.intVal (coerceIter st.iteration + 1))⟩) with
          | error e =>
            cases e
            exfalso
            obtain ⟨hselt, hbad⟩ := generator_node_err orc gi _ hgn
            cases hsp : (applyPatch st ⟨none, none, none, none, none,
                some (some fb),
                some (.intVal (coerceIter st.iteration + 1))⟩).selected_paper
              with
            | none => rw [hsp] at hselt; simp [selTruthy] at hselt
            | some d =>
              have hfields := hpo d hsp
              rcases hbad with hbad | hbad
              · rw [hsp] at hbad
                simp only [Option.getD] at hbad
                rw [generatorPromptOk_of d (applyPatch st ⟨none, none,
                  none, none, none, some (some fb),
                  some (.intVal (coerceIter st.iteration + 1))⟩)
                  hfields hao] at hbad
                cases hbad
              · rcases hgeno gi with hg | ⟨q, hg, _⟩ <;>
                  rw [hg] at hbad <;> cases hbad
          | ok pgb =>
            obtain ⟨pg, gb⟩ := pgb
            obtain ⟨go, hpg, hcases⟩ := generator_node_ok orc gi _ pg gb hgn
            subst hpg
            have hago : ArtOk go := by
              rcases hcases with rfl | ⟨d, q, hd, hgc, rfl⟩
              · intro a ha2
                cases ha2
              · intro a ha2
                rcases hgeno gi with hg | ⟨q2, hg, hq2⟩
                · rw [hg] at hgc
                  simp at hgc
                · rw [hg] at hgc
                  have hq2q : q2 = q := by simpa using hgc
                  rw [hq2q] at hq2
                  obtain ⟨e1, e2, e3⟩ := ensureCitation_content d q a ha2
                  unfold qFieldsOk at hq2 ⊢
                  rw [e1, e2, e3]
                  exact hq2
            obtain ⟨res, final, hstep, hout⟩ := ih (ri + 1) (by omega)
              (f3 + 1)
              (applyPatch (applyPatch st ⟨none, none, none, none, none,
                some (some fb),
                some (.intVal (coerceIter st.iteration + 1))⟩)
                ⟨none, none, none, some go, none, none, none⟩)
              (gi + 1)
              (tr ++ [(true, (applyPatch st ⟨none, none, none, none, none,
                some (some fb),
                some (.intVal (coerceIter st.iteration + 1))⟩).iteration)])
              (nc + 1 + if gb then 1 else 0) hit2 hpo hago (by omega)
            refine ⟨res, final, ?_, hout⟩
            rw [stepRun_reviewer_loop orc (f3 + 1 + 1) st gi ri tr nc _ _
              hrv hroute]
            have e2 := stepRun_generator orc (f3 + 1) _ gi (ri + 1)
              (tr ++ [(true, (applyPatch st ⟨none, none, none, none, none,
                some (some fb),
                some (.intVal (coerceIter st.iteration + 1))⟩).iteration)])
              (nc + 1) _ gb hgn
            exact e2.trans hstep

/-- Selector on an empty candidate list: null selection, no call. -/
theorem selector_node_empty (orc : Oracle) (st : AgentState)
    (h : st.papers = []) :
    selector_node orc st =
      .ok (⟨none, none, some none, none, none, none, none⟩, false) := by
  simp [selector_node, h]

/-- Selector fallback on invalid JSON: the first candidate. -/
theorem selector_node_first (orc : Oracle) (st : AgentState)
    (p0 : Paper) (rest : List Paper) (hps : st.papers = p0 :: rest)
    (hc : orc.selectorCall = .ok .decodeErr) :
    selector_node orc st =
      .ok (⟨none, none, some (some p0.toSel), none, none, none, none⟩,
        true) := by
  simp [selector_node, hps, hc]

/-- Selector storing a parsed dict as-is. -/
theorem selector_node_dict (orc : Oracle) (st : AgentState)
    (p0 : Paper) (rest : List Paper) (d : SelDict)
    (hps : st.papers = p0 :: rest)
    (hc : orc.selectorCall = .ok (.dict d)) :
    selector_node orc st =
      .ok (⟨none, none, some (some d), none, none, none, none⟩, true) := by
  simp [selector_node, hps, hc]

/-- A generator artifact built from a parsed response satisfies the
artifact invariant whenever the oracle only hands out well-formed
parsed generator responses. -/
theorem artOk_of_generator (orc : Oracle) (gi : Nat)
    (hgen : ∀ i, orc.generatorCall i = .ok none ∨
      ∃ q, orc.generatorCall i = .ok (some q) ∧ qFieldsOk q = true)
    (go : Option QDict) (d : SelDict) (q : QDict)
    (hgc : orc.generatorCall gi = .ok (some q))
    (hgo : go = ensureCitation d q) : ArtOk go := by
  intro a ha2
  rcases hgen gi with hg | ⟨q2, hg, hq2⟩
  · rw [hg] at hgc
    simp at hgc
  · rw [hg] at hgc
    have hq2q : q2 = q := by simpa using hgc
    rw [hq2q] at hq2
    rw [hgo] at ha2
    obtain ⟨e1, e2, e3⟩ := ensureCitation_content d q a ha2
    unfold qFieldsOk at hq2 ⊢
    rw [e1, e2, e3]
    exact hq2

/-- Under a well-behaved reasoning service and the paper/artifact
invariants, the run from the generator stage onward (first pass, zero
judgments so far) reaches the terminal stage with an `ok` state. -/
theorem genStage_ok (orc : Oracle) (hok : OracleLLMOk orc) (k : Nat)
    (st : AgentState) (gi : Nat) (tr : List (Bool × IterField)) (nc : Nat)
    (hit : st.iteration = .intVal (Int.ofNat 0))
    (hpo : PaperOk st.selected_paper)
    (hao : ArtOk st.generated_question)
    (hk : 7 ≤ k) :
    ∃ res final, stepRun orc (k + 1) .generatorS st gi 0 tr nc = some res ∧
      res.outcome = .ok final := by
  cases hgn : generator_node orc gi st with
  | error e =>
    cases e
    exfalso
    obtain ⟨hselt, hbad⟩ := generator_node_err orc gi st hgn
    cases hsp : st.selected_paper with
    | none => rw [hsp] at hselt; simp [selTruthy] at hselt
    | some d =>
      have hfields := hpo d hsp
      rcases hbad with hbad | hbad
      · rw [hsp] at hbad
        simp only [Option.getD] at hbad
        rw [generatorPromptOk_of d st hfields hao] at hbad
        cases hbad
      · rcases hok.2.2.1 gi with hg | ⟨q, hg, _⟩ <;>
          rw [hg] at hbad <;> cases hbad
  | ok pgb =>
    obtain ⟨pg, gb⟩ := pgb
    obtain ⟨go, hpg, hcases⟩ := generator_node_ok orc gi st pg gb hgn
    subst hpg
    have hago : ArtOk go := by
      rcases hcases with rfl | ⟨d, q, hd, hgc, hgo⟩
      · intro a ha2
        cases ha2
      · exact artOk_of_generator orc gi hok.2.2.1 go d q hgc hgo
    obtain ⟨res, final, hstep, hout⟩ := revLoop_ok orc hok 2 0 rfl k
      (applyPatch st ⟨none, none, none, some go, none, none, none⟩)
      (gi + 1) tr (nc + if gb then 1 else 0) hit hpo hago (by omega)
    refine ⟨res, final, ?_, hout⟩
    exact (stepRun_generator orc k st gi 0 tr nc _ gb hgn).trans hstep

/-- C3 counterexample: a reasoning-service call that raises in the
Planner (a ProviderError in the spec's taxonomy) aborts the whole run —
no node recovers it and no final state is returned, refuting the claim
that no per-node domain failure ever aborts a run. -/
theorem C3_counterexample :
    runAgent { baseOracle with plannerCall := .error () } "topic" 12 =
      some ⟨.error (), 0, [], 1⟩ := rfl

/-- C3 amended: domain failures of the collaborators that the code
actually guards — any search-provider behaviour (missing credentials,
failed client construction, per-query raises) and any JSON parse
failure (selector fallback, null artifact) — never abort the run:
provided every reasoning-service call returns (instead of raising), the
selector response is invalid JSON or an object with the three subscripted
keys, and every generator response is unparsable or an object with the
three content keys, every run reaches the terminal stage with an `ok`
final state.  (A raising reasoning call, a valid-JSON non-object
selector response, or a content-key-free generator object instead
aborts, per `C3_counterexample` and the `.error` paths of the nodes.) -/
theorem C3_guarded_failures_never_abort (orc : Oracle) (topic : String)
    (fuel : Nat) (hok : OracleLLMOk orc) (hf : 11 ≤ fuel) :
    ∃ res final, runAgent orc topic fuel = some res ∧
      res.outcome = .ok final := by
  obtain ⟨f4, rfl⟩ : ∃ f4, fuel = f4 + 1 + 1 + 1 + 1 :=
    ⟨fuel - 4, by omega⟩
  obtain ⟨qs, hpl⟩ := hok.1
  have hpn : planner_node orc (initState topic) =
      .ok (⟨some qs, none, none, none, none, none, none⟩, true) := by
    simp [planner_node, hpl]
  have s1 := stepRun_planner orc (f4 + 1 + 1 + 1) (initState topic)
    0 0 [] 0 _ true hpn
  obtain ⟨P, hres⟩ := researcher_node_shape orc
    (applyPatch (initState topic) ⟨some qs, none, none, none, none,
      none, none⟩)
  have s2 := stepRun_researcher orc (f4 + 1 + 1)
    (applyPatch (initState topic) ⟨some qs, none, none, none, none,
      none, none⟩) 0 0 [] (0 + 1)
  rw [hres] at s2
  have hao2 : ArtOk (none : Option QDict) := fun a h => nomatch h
  cases P with
  | nil =>
    have hsn := selector_node_empty orc
      (applyPatch (applyPatch (initState topic) ⟨some qs, none, none,
        none, none, none, none⟩) ⟨none, some [], none, none, none, none,
        none⟩) rfl
    have s3 := stepRun_selector orc (f4 + 1)
      (applyPatch (applyPatch (initState topic) ⟨some qs, none, none,
        none, none, none, none⟩) ⟨none, some [], none, none, none, none,
        none⟩) 0 0 [] (0 + 1) _ false hsn
    obtain ⟨res, final, hstep, hout⟩ := genStage_ok orc hok f4
      (applyPatch (applyPatch (applyPatch (initState topic)
        ⟨some qs, none, none, none, none, none, none⟩)
        ⟨none, some [], none, none, none, none, none⟩)
        ⟨none, none, some none, none, none, none, none⟩) 0 []
      (0 + 1 + if false then 1 else 0) rfl (fun d h => nomatch h) hao2
      (by omega)
    exact ⟨res, final, s1.trans (s2.trans (s3.trans hstep)), hout⟩
  | cons p0 rest =>
    rcases hok.2.1 with hdec | ⟨d, hdict, hdf⟩
    · have hsn := selector_node_first orc
        (applyPatch (applyPatch (initState topic) ⟨some qs, none, none,
          none, none, none, none⟩) ⟨none, some (p0 :: rest), none, none,
          none, none, none⟩) p0 rest rfl hdec
      have s3 := stepRun_selector orc (f4 + 1)
        (applyPatch (applyPatch (initState topic) ⟨some qs, none, none,
          none, none, none, none⟩) ⟨none, some (p0 :: rest), none, none,
          none, none, none⟩) 0 0 [] (0 + 1) _ true hsn
      obtain ⟨res, final, hstep, hout⟩ := genStage_ok orc hok f4
        (applyPatch (applyPatch (applyPatch (initState topic)
          ⟨some qs, none, none, none, none, none, none⟩)
          ⟨none, some (p0 :: rest), none, none, none, none, none⟩)
          ⟨none, none, some (some p0.toSel), none, none, none, none⟩) 0 []
        (0 + 1 + if true then 1 else 0) rfl
        (fun d2 h => by
          have h2 : some (Paper.toSel p0) = some d2 := h
          obtain rfl := Option.some_inj.mp h2
          exact ⟨rfl, rfl, rfl⟩) hao2
        (by omega)
      exact ⟨res, final, s1.trans (s2.trans (s3.trans hstep)), hout⟩
    · have hsn := selector_node_dict orc
        (applyPatch (applyPatch (initState topic) ⟨some qs, none, none,
          none, none, none, none⟩) ⟨none, some (p0 :: rest), none, none,
          none, none, none⟩) p0 rest d rfl hdict
      have s3 := stepRun_selector orc (f4 + 1)
        (applyPatch (applyPatch (initState topic) ⟨some qs, none, none,
          none, none, none, none⟩) ⟨none, some (p0 :: rest), none, none,
          none, none, none⟩) 0 0 [] (0 + 1) _ true hsn
      obtain ⟨res, final, hstep, hout⟩ := genStage_ok orc hok f4
        (applyPatch (applyPatch (applyPatch (initState topic)
          ⟨some qs, none, none, none, none, none, none⟩)
          ⟨none, some (p0 :: rest), none, none, none, none, none⟩)
          ⟨none, none, some (some d), none, none, none, none⟩) 0 []
        (0 + 1 + if true then 1 else 0) rfl
        (fun d2 h => by
          have h2 : some d = some d2 := h
          obtain rfl := Option.some_inj.mp h2
          exact hdf) hao2
        (by omega)
      exact ⟨res, final, s1.trans (s2.trans (s3.trans hstep)), hout⟩

/-- One engine step at the publish stage (success). -/
theorem stepRun_linkedin (orc : Oracle) (f : Nat) (st : AgentState)
    (gi ri : Nat) (tr : List (Bool × IterField)) (nc : Nat)
    (p : Patch) (b : Bool) (h : linkedin_node orc st = .ok (p, b)) :
    stepRun orc (f + 1) .linkedinS st gi ri tr nc =
      stepRun orc f .doneS (applyPatch st p) gi ri tr
        (nc + if b then 1 else 0) := by
  simp only [stepRun, h]

/-- The terminal stage returns the accumulated result. -/
theorem stepRun_done (orc : Oracle) (f : Nat) (st : AgentState)
    (gi ri : Nat) (tr : List (Bool × IterField)) (nc : Nat) :
    stepRun orc (f + 1) .doneS st gi ri tr nc =
      some ⟨.ok st, ri, tr, nc⟩ := by
  simp only [stepRun]

/- ---------------------------------------------------------------- -/
/- Claim C9                                                         -/
/- ---------------------------------------------------------------- -/

/-- C9: under total search-provider failure (no credential for the whole
run) and a planner call that returns, the run completes end-to-end with
the degenerate cascade — no candidates, null selection, null artifact,
the reviewer short-circuiting with the fixed message and iteration
staying 0, the policy publishing, and a null post — and exactly one
reasoning-service call is made in the whole run (the planner's): the
selector, generator, reviewer and publisher all short-circuit without
calling the service. -/
theorem C9_total_provider_failure (orc : Oracle) (topic : String)
    (qs : List String) (fuel : Nat)
    (hpl : orc.plannerCall = .ok qs)
    (hkey : orc.searchKeyPresent = false)
    (hf : 7 ≤ fuel) :
    runAgent orc topic fuel =
      some ⟨.ok ⟨topic, qs, [], none, none, none, some failedMsg,
        .intVal 0⟩, 0, [(false, .intVal 0)], 1⟩ := by
  obtain ⟨f7, rfl⟩ : ∃ f7, fuel = f7 + 1 + 1 + 1 + 1 + 1 + 1 + 1 :=
    ⟨fuel - 7, by omega⟩
  have hpn : planner_node orc (initState topic) =
      .ok (⟨some qs, none, none, none, none, none, none⟩, true) := by
    simp [planner_node, hpl]
  have s1 := stepRun_planner orc (f7 + 1 + 1 + 1 + 1 + 1 + 1)
    (initState topic) 0 0 [] 0 _ true hpn
  have hrn : researcher_node orc (applyPatch (initState topic)
      ⟨some qs, none, none, none, none, none, none⟩) =
      (⟨none, some [], none, none, none, none, none⟩, false) := by
    simp [researcher_node, hkey]
  have s2 := stepRun_researcher orc (f7 + 1 + 1 + 1 + 1 + 1)
    (applyPatch (initState topic)
      ⟨some qs, none, none, none, none, none, none⟩) 0 0 [] 1
  rw [hrn] at s2
  have hsn := selector_node_empty orc
    (applyPatch (applyPatch (initState topic)
      ⟨some qs, none, none, none, none, none, none⟩)
      ⟨none, some [], none, none, none, none, none⟩) rfl
  have s3 := stepRun_selector orc (f7 + 1 + 1 + 1 + 1)
    (applyPatch (applyPatch (initState topic)
      ⟨some qs, none, none, none, none, none, none⟩)
      ⟨none, some [], none, none, none, none, none⟩) 0 0 [] 1 _ false hsn
  have hgn : generator_node orc 0
      (applyPatch (applyPatch (applyPatch (initState topic)
        ⟨some qs, none, none, none, none, none, none⟩)
        ⟨none, some [], none, none, none, none, none⟩)
        ⟨none, none, some none, none, none, none, none⟩) =
      .ok (⟨none, none, none, some none, none, none, none⟩, false) := rfl
  have s4 := stepRun_generator orc (f7 + 1 + 1 + 1)
    (applyPatch (applyPatch (applyPatch (initState topic)
      ⟨some qs, none, none, none, none, none, none⟩)
      ⟨none, some [], none, none, none, none, none⟩)
      ⟨none, none, some none, none, none, none, none⟩) 0 0 [] 1 _
    false hgn
  have hrev : reviewer_node orc 0
      (applyPatch (applyPatch (applyPatch (applyPatch (initState topic)
        ⟨some qs, none, none, none, none, none, none⟩)
        ⟨none, some [], none, none, none, none, none⟩)
        ⟨none, none, some none, none, none, none, none⟩)
        ⟨none, none, none, some none, none, none, none⟩) =
      .ok (⟨none, none, none, none, none, some (some failedMsg), none⟩,
        false) := rfl
  have hroute : should_continue (applyPatch (applyPatch (applyPatch
      (applyPatch (applyPatch (initState topic)
      ⟨some qs, none, none, none, none, none, none⟩)
      ⟨none, some [], none, none, none, none, none⟩)
      ⟨none, none, some none, none, none, none, none⟩)
      ⟨none, none, none, some none, none, none, none⟩)
      ⟨none, none, none, none, none, some (some failedMsg), none⟩) =
      .linkedin := rfl
  have s5 := stepRun_reviewer_exit orc (f7 + 1 + 1)
    (applyPatch (applyPatch (applyPatch (applyPatch (initState topic)
      ⟨some qs, none, none, none, none, none, none⟩)
      ⟨none, some [], none, none, none, none, none⟩)
      ⟨none, none, some none, none, none, none, none⟩)
      ⟨none, none, none, some none, none, none, none⟩) 0 0 [] 1 _
    false hrev hroute
  have hln : linkedin_node orc (applyPatch (applyPatch (applyPatch
      (applyPatch (applyPatch (initState topic)
      ⟨some qs, none, none, none, none, none, none⟩)
      ⟨none, some [], none, none, none, none, none⟩)
      ⟨none, none, some none, none, none, none, none⟩)
      ⟨none, none, none, some none, none, none, none⟩)
      ⟨none, none, none, none, none, some (some failedMsg), none⟩) =
      .ok (⟨none, none, none, none, some none, none, none⟩, false) := rfl
  have s6 := stepRun_linkedin orc (f7 + 1)
    (applyPatch (applyPatch (applyPatch (applyPatch (applyPatch
      (initState topic)
      ⟨some qs, none, none, none, none, none, none⟩)
      ⟨none, some [], none, none, none, none, none⟩)
      ⟨none, none, some none, none, none, none, none⟩)
      ⟨none, none, none, some none, none, none, none⟩)
      ⟨none, none, none, none, none, some (some failedMsg), none⟩)
    0 0 [(false, .intVal 0)] 1 _ false hln
  have s7 := stepRun_done orc f7
    (applyPatch (applyPatch (applyPatch (applyPatch (applyPatch
      (applyPatch (initState topic)
      ⟨some qs, none, none, none, none, none, none⟩)
      ⟨none, some [], none, none, none, none, none⟩)
      ⟨none, none, some none, none, none, none, none⟩)
      ⟨none, none, none, some none, none, none, none⟩)
      ⟨none, none, none, none, none, some (some failedMsg), none⟩)
      ⟨none, none, none, none, some none, none, none⟩)
    0 0 [(false, .intVal 0)] 1
  exact s1.trans (s2.trans (s3.trans (s4.trans (s5.trans
    (s6.trans s7)))))

/- ---------------------------------------------------------------- -/
/- Witnesses                                                        -/
/- ---------------------------------------------------------------- -/

/-- Witness for C2 at a concrete oracle and ceiling. -/
theorem C2_iteration_bounded_witness :
    ∃ res : RunResult, runAgent baseOracle "topic" 12 = some res ∧
      res.revCount ≤ 3 ∧
      ∃ tail, res.iters = specTrace 0 res.revCount ++ tail ∧
        (tail = [] ∨
          tail = [(false, IterField.intVal (Int.ofNat res.revCount))]) :=
  C2_iteration_bounded baseOracle "topic" 12 (by decide)

/-- Witness for the amended C3 at a concrete well-behaved oracle. -/
theorem C3_guarded_failures_never_abort_witness :
    ∃ res final, runAgent baseOracle "topic" 12 = some res ∧
      res.outcome = .ok final :=
  C3_guarded_failures_never_abort baseOracle "topic" 12
    ⟨⟨["q1"], rfl⟩, Or.inl rfl,
      fun _ => Or.inr ⟨⟨some "Q", some "W", some "E", some "c http://x d"⟩,
        rfl, by decide⟩,
      fun _ => ⟨"APPROVE", rfl⟩, ⟨"POST", rfl⟩⟩ (by decide)

/-- Witness for the amended C4 at a concrete generator pass. -/
theorem C4_artifact_mirrors_response_witness :
    ∃ q, baseOracle.generatorCall 0 = .ok (some q) ∧
      (⟨some "Q", some "W", some "E", some "c http://x d"⟩ : QDict).question =
        q.question ∧
      (⟨some "Q", some "W", some "E",
        some "c http://x d"⟩ : QDict).wrong_answer = q.wrong_answer ∧
      (⟨some "Q", some "W", some "E",
        some "c http://x d"⟩ : QDict).explanation = q.explanation :=
  C4_artifact_mirrors_response baseOracle 0 stWithPaper
    ⟨none, none, none, some (some ⟨some "Q", some "W", some "E",
      some "c http://x d"⟩), none, none, none⟩ true
    ⟨some "Q", some "W", some "E", some "c http://x d"⟩ rfl rfl

/-- Witness for C5 at a concrete generator pass whose parsed citation
already contains the URL. -/
theorem C5_citation_contains_url_witness :
    ∃ d u, stWithPaper.selected_paper = some d ∧ d.url = some u ∧
      strContainsSub ((⟨some "Q", some "W", some "E",
        some "c http://x d"⟩ : QDict).citation.getD "") u = true ∧
      (strContainsSub ((⟨some "Q", some "W", some "E",
          some "c http://x d"⟩ : QDict).citation.getD "") u = false →
        ∃ t, d.title = some t ∧
          (⟨some "Q", some "W", some "E",
            some "c http://x d"⟩ : QDict).citation =
            some (t ++ " - " ++ d.authors.getD "Unknown" ++
              " (" ++ u ++ ")")) :=
  C5_citation_contains_url baseOracle 0 stWithPaper
    ⟨none, none, none, some (some ⟨some "Q", some "W", some "E",
      some "c http://x d"⟩), none, none, none⟩ true
    ⟨some "Q", some "W", some "E", some "c http://x d"⟩
    ⟨some "Q", some "W", some "E", some "c http://x d"⟩ rfl rfl rfl

/-- Witness for the amended C6 on the fallback branch. -/
theorem C6_selector_fallback_witness :
    selector_node baseOracle stWithPaper =
      .ok ({ selected_paper := some (some paperX.toSel) }, true) :=
  (C6_selector_fallback baseOracle stWithPaper).2.1 paperX [] rfl rfl

/-- Witness for C8 at a concrete state with a null artifact. -/
theorem C8_reviewer_short_circuit_witness :
    reviewer_node baseOracle 0 (initState "topic") =
      .ok ({ feedback := some (some failedMsg) }, false) ∧
    applyPatch (initState "topic") { feedback := some (some failedMsg) } =
      { initState "topic" with feedback := some failedMsg } :=
  C8_reviewer_short_circuit baseOracle 0 (initState "topic") rfl

/-- Witness for C9 at a concrete unconfigured-search oracle. -/
theorem C9_total_provider_failure_witness :
    runAgent { baseOracle with searchKeyPresent := false } "topic" 7 =
      some ⟨.ok ⟨"topic", ["q1"], [], none, none, none, some failedMsg,
        .intVal 0⟩, 0, [(false, .intVal 0)], 1⟩ :=
  C9_total_provider_failure { baseOracle with searchKeyPresent := false }
    "topic" ["q1"] 7 rfl rfl (by decide)

/-- A concrete state whose iteration field holds a non-integer. -/
def stNonInt : AgentState :=
  { initState "topic" with iteration := .nonInt }

/-- Witness for C10 at a concrete non-integer iteration state. -/
theorem C10_noninteger_iteration_witness :
    should_continue stNonInt =
      should_continue { stNonInt with iteration := .intVal 0 } ∧
    (∀ p b, reviewer_node baseOracle 0 stNonInt = .ok (p, b) → b = true →
      p.iteration = some (.intVal 1)) :=
  C10_noninteger_iteration baseOracle 0 stNonInt rfl
